import Mathlib

/-!
Shallow embedding of the response-parsing engine of the HealthVitals backend
(`backend/utils.py`), together with theorems settling the specification claims.

Strings are modelled as `List Char`; Python regular expressions are embedded as
specialized deterministic matchers that reproduce the behaviour of the concrete
patterns appearing in the source (greedy character-class munching, lazy capture
up to a stop condition, leftmost-match search, case-insensitive comparison for
patterns compiled with `re.IGNORECASE`).  Scanning loops that advance through
the text by a non-structural amount take an explicit fuel argument; every
top-level entry point passes `length + 1` fuel, which is sufficient because
each step consumes at least one character.
-/

namespace HV

/-! ### Character classes (Python semantics, ASCII range) -/

/-- Python `\s` on ASCII text: space, tab, newline, carriage return,
vertical tab, form feed. -/
def pyWs (c : Char) : Bool :=
  c = ' ' || c = '\t' || c = '\n' || c = '\r' || c = '\x0b' || c = '\x0c'

/-- The class `[A-Z]`. -/
def isUpperAZ (c : Char) : Bool := 'A' ≤ c && c ≤ 'Z'

/-- The class `[a-z]`. -/
def isLowerAZ (c : Char) : Bool := 'a' ≤ c && c ≤ 'z'

/-- The class `\d`. -/
def isDigitC (c : Char) : Bool := '0' ≤ c && c ≤ '9'

/-- The class `\w` (ASCII): letters, digits, underscore. -/
def isWordC (c : Char) : Bool := isUpperAZ c || isLowerAZ c || isDigitC c || c = '_'

/-- ASCII lower-casing, as Python `str.lower` acts on ASCII letters. -/
def lowerC (c : Char) : Char := if isUpperAZ c then Char.ofNat (c.toNat + 32) else c

/-- ASCII upper-casing, as Python `str.upper` acts on ASCII letters. -/
def upperC (c : Char) : Char := if isLowerAZ c then Char.ofNat (c.toNat - 32) else c

/-! ### Basic string operations -/

/-- Python `str.strip()`: drop leading and trailing whitespace. -/
def pyStrip (l : List Char) : List Char :=
  ((l.dropWhile pyWs).reverse.dropWhile pyWs).reverse

/-- Python `str.lower()` (ASCII). -/
def pyLower (l : List Char) : List Char := l.map lowerC

/-- Python `str.upper()` (ASCII). -/
def pyUpper (l : List Char) : List Char := l.map upperC

/-- Consume the literal `pat` from the front of `l`, case-sensitively,
returning the remainder on success. -/
def dropLitCS : List Char → List Char → Option (List Char)
  | [], l => some l
  | _ :: _, [] => none
  | p :: ps, c :: cs => if p = c then dropLitCS ps cs else none

/-- Consume the literal `pat` from the front of `l`, case-insensitively
(ASCII case folding, as `re.IGNORECASE`), returning the remainder. -/
def dropLitCI : List Char → List Char → Option (List Char)
  | [], l => some l
  | _ :: _, [] => none
  | p :: ps, c :: cs => if lowerC p = lowerC c then dropLitCI ps cs else none

/-- Whether `l` begins with the literal `pat` (case-sensitive). -/
def startsCS (pat : List Char) (l : List Char) : Bool := (dropLitCS pat l).isSome

/-- Whether `l` begins with the literal `pat` (case-insensitive). -/
def startsCI (pat : List Char) (l : List Char) : Bool := (dropLitCI pat l).isSome

/-- Leftmost-match search: try the matcher at every suffix, leftmost first.
This is the scanning behaviour of `re.search`. -/
def searchFirst (m : List Char → Option α) : List Char → Option α
  | [] => m []
  | c :: t =>
    match m (c :: t) with
    | some r => some r
    | none => searchFirst m t

/-- Lazy capture with a possibly-empty group: split `l` as `a ++ b` with `a`
minimal such that `stop b` holds (the behaviour of `(.*?)(?=stop|$)` under
`re.DOTALL` when `stop` includes the end-of-input condition). -/
def scanStop0 (stop : List Char → Bool) : List Char → Option (List Char × List Char)
  | [] => if stop [] then some ([], []) else none
  | c :: cs =>
    if stop (c :: cs) then some ([], c :: cs)
    else (scanStop0 stop cs).map fun p => (c :: p.1, p.2)

/-- Lazy capture with a non-empty group (`([\s\S]+?)` and friends): at least
one character is taken before the stop condition is consulted. -/
def scanStop1 (stop : List Char → Bool) : List Char → Option (List Char × List Char)
  | [] => none
  | c :: cs => (scanStop0 stop cs).map fun p => (c :: p.1, p.2)

/-- Python `sub in s` (case-sensitive substring test). -/
def containsSub (needle : List Char) (l : List Char) : Bool :=
  (searchFirst (fun t => if startsCS needle t then some () else none) l).isSome

/-- Python `s.find(sub)`: index of the first occurrence, or `none` for `-1`. -/
def pyFindGo (needle : List Char) : List Char → Nat → Option Nat
  | [], i => if startsCS needle [] then some i else none
  | c :: t, i =>
    if startsCS needle (c :: t) then some i
    else pyFindGo needle t (i + 1)

/-- Python `s.find(sub)`. -/
def pyFind (needle l : List Char) : Option Nat := pyFindGo needle l 0

/-- Python `s.find(sub, start)`. -/
def pyFindFrom (needle l : List Char) (start : Nat) : Option Nat :=
  (pyFindGo needle (l.drop start) 0).map (· + start)

/-- Numeric value of a digit string, as Python `int` on a `\d+` capture. -/
def natOfDigits (l : List Char) : Nat :=
  l.foldl (fun n c => 10 * n + (c.toNat - '0'.toNat)) 0

/-- Python `s.split('\n')`. -/
def splitNlGo : List Char → List Char → List (List Char)
  | acc, [] => [acc.reverse]
  | acc, c :: cs => if c = '\n' then acc.reverse :: splitNlGo [] cs else splitNlGo (c :: acc) cs

/-- Python `s.split('\n')`. -/
def splitNl (l : List Char) : List (List Char) := splitNlGo [] l

/-- Python `s.split()`: words separated by whitespace runs, empties dropped. -/
def pyWordsGo : List Char → List Char → List (List Char)
  | acc, [] => if acc = [] then [] else [acc.reverse]
  | acc, c :: cs =>
    if pyWs c then (if acc = [] then pyWordsGo [] cs else acc.reverse :: pyWordsGo [] cs)
    else pyWordsGo (c :: acc) cs

/-- Python `s.split()`. -/
def pyWords (l : List Char) : List (List Char) := pyWordsGo [] l

/-- Python `str.isupper()`: at least one cased character and no lower-case
cased character (ASCII). -/
def pyIsUpper (l : List Char) : Bool :=
  l.any (fun c => isUpperAZ c || isLowerAZ c) && l.all (fun c => !isLowerAZ c)

/-! ### The Field Normalizer `clean_text` -/

/-- The substitution `re.sub(r'\s+', ' ', text)`: every maximal whitespace run
is replaced by a single space. -/
def collapseWs : List Char → List Char
  | [] => []
  | [c] => if pyWs c then [' '] else [c]
  | c :: d :: rest =>
    if pyWs c then
      if pyWs d then collapseWs (d :: rest)
      else ' ' :: collapseWs (d :: rest)
    else c :: collapseWs (d :: rest)

/-- The body of `clean_text` on character lists: remove asterisks
(`text.replace('*', '')`), collapse whitespace runs, strip. -/
def cleanTextL (l : List Char) : List Char :=
  pyStrip (collapseWs (l.filter (· ≠ '*')))

/-- `clean_text` from `backend/utils.py`: remove asterisks, collapse
whitespace, and trim. -/
def clean_text (s : String) : String := ⟨cleanTextL s.data⟩

/-! ### The data model: the analysis record assembled by the parser -/

/-- One entry of `possibleConditions`. -/
structure Condition where
  name : String
  probability : Nat
  description : String
  category : String
  deriving DecidableEq, Repr

/-- The `mealRecommendations` sub-record. -/
structure MealRecommendations where
  breakfast : List String
  lunch : List String
  dinner : List String
  note : String
  deriving DecidableEq, Repr

/-- One structured Ayurvedic recommendation. -/
structure AyurRec where
  name : String
  description : String
  importance : String
  benefits : String
  deriving DecidableEq, Repr

/-- The `ayurvedicMedication` sub-record.  In the normal path the dict holds
only the `recommendations` key; the fixed error records additionally carry
`description`, `benefits` and `importance` keys, modelled as optional. -/
structure AyurMed where
  recommendations : List AyurRec
  description : Option String
  benefits : Option (List String)
  importance : Option String
  deriving DecidableEq, Repr

/-- The per-condition detail stored under `conditionSpecificData`; both keys
are created together at every site in the source. -/
structure CondDetail where
  recommendedActions : List String
  preventiveMeasures : List String
  deriving DecidableEq, Repr

/-- One entry of `reportsRequired`.  The source drops empty field values from
the dict, so the five optional fields are `Option`, `none` standing for an
absent key (an empty extraction). -/
structure ReportItem where
  name : String
  purpose : Option String
  benefits : Option String
  analysisDetails : Option String
  preparationRequired : Option String
  recommendationReason : Option String
  deriving DecidableEq, Repr

/-- The top-level record returned by `parse_gemini_response`.
`ayurvedicMedication` is `Option` because the source can `pop` that key;
every other key is assigned on every path and never removed.
`conditionSpecificData` is an insertion-ordered association list, mirroring a
Python dict. -/
structure AnalysisRecord where
  possibleConditions : List Condition
  recommendation : String
  urgency : String
  followUpActions : List String
  riskFactors : List String
  mealRecommendations : MealRecommendations
  exercisePlan : List String
  diseases : List String
  preventiveMeasures : List String
  medicineRecommendations : List String
  ayurvedicMedication : Option AyurMed
  dos : List String
  donts : List String
  conditionSpecificData : List (String × CondDetail)
  reportsRequired : List ReportItem
  healthScore : Nat
  deriving DecidableEq, Repr

/-- Python dict assignment on an association list: overwrite in place if the
key exists (keeping its position, as dicts keep insertion order), else append. -/
def dictInsert (m : List (String × α)) (k : String) (v : α) : List (String × α) :=
  if m.any (fun p => p.1 = k) then m.map (fun p => if p.1 = k then (k, v) else p)
  else m ++ [(k, v)]

/-- Python `k in d` / `d[k]` on an association list. -/
def dictGet (m : List (String × α)) (k : String) : Option α :=
  (m.find? (fun p => p.1 = k)).map (·.2)

/-- Update the value stored at an existing key in place. -/
def dictUpdate (m : List (String × α)) (k : String) (f : α → α) : List (String × α) :=
  m.map (fun p => if p.1 = k then (k, f p.2) else p)

/-! ### The Section Splitter

The source splits the response with
`re.finditer(r'([A-Z\s\']+):[\r\n]+([\s\S]+?)(?=(?:[A-Z\s\']+:)|$)', text)`,
then stores `group(1).strip().upper() ↦ group(2).strip()` into a dict.  The
pattern is unanchored, so a match may begin anywhere in the text. -/

/-- The class `[A-Z\s']` of the heading pattern. -/
def clsChar (c : Char) : Bool := isUpperAZ c || pyWs c || c = '\''

/-- The lookahead `(?=[A-Z\s\']+:)`: a non-empty greedy class run followed by
a colon (the class excludes `:`, so greedy munching is exact). -/
def headColon (l : List Char) : Bool :=
  let run := l.takeWhile clsChar
  !run.isEmpty && startsCS [':'] (l.drop run.length)

/-- Stop condition of the lazy body `([\s\S]+?)`: the next heading lookahead,
the end of the text, or the position just before a final newline (Python `$`
without `re.MULTILINE`). -/
def sectionStop (l : List Char) : Bool :=
  headColon l || l.isEmpty || l = ['\n']

/-- Attempt the section pattern at the current position.  On success returns
the (stripped, upper-cased) heading, the stripped body, and the remainder of
the text after the body (the `finditer` continuation point).  The
`[\r\n]+` element backtracks by one character when the body would otherwise
be empty at the end of the text. -/
def matchSectionAt (l : List Char) : Option ((String × String) × List Char) :=
  let run := l.takeWhile clsChar
  if run.isEmpty then none
  else
    match l.drop run.length with
    | ':' :: rest =>
      let nls := rest.takeWhile (fun c => c = '\r' || c = '\n')
      if nls.isEmpty then none
      else
        let key : String := ⟨pyUpper (pyStrip run)⟩
        match scanStop1 sectionStop (rest.drop nls.length) with
        | some (body, after) => some ((key, ⟨pyStrip body⟩), after)
        | none =>
          -- the remainder after the newline run is empty; `[\r\n]+` gives one
          -- newline back to the lazy body, which then stops at end of input
          if 2 ≤ nls.length then some ((key, ⟨pyStrip [nls.getLast!]⟩), []) else none
    | _ => none

/-- The `finditer` scan: try the section pattern at each position, emitting
matches and continuing after each match.  Fuel decreases by one per step;
each step consumes at least one character, so `length + 1` fuel suffices. -/
def sectionsGo : Nat → List Char → List (String × String)
  | 0, _ => []
  | _ + 1, [] => []
  | fuel + 1, c :: cs =>
    match matchSectionAt (c :: cs) with
    | some (kv, after) => kv :: sectionsGo fuel after
    | none => sectionsGo fuel cs

/-- The section mapping: all matches folded into a dict, later identical
headings overwriting earlier ones. -/
def sectionsOf (l : List Char) : List (String × String) :=
  (sectionsGo (l.length + 1) l).foldl (fun m kv => dictInsert m kv.1 kv.2) []

/-! ### Shared regex building blocks -/

/-- Largest index of a character satisfying `keep` in `wsp`, if any. -/
def lastKeepIdx (keep : Char → Bool) (wsp : List Char) : Option Nat :=
  let rs := wsp.reverse.dropWhile (fun c => !keep c)
  if rs.isEmpty then none else some (rs.length - 1)

/-- The element `\s*([c]+)` where `[c]` is a class of (some) non-whitespace
and (all) non-newline whitespace characters: greedy whitespace munching
followed by a greedy non-empty class run, with the whitespace star
backtracking into its own run when the class would otherwise have nothing to
match.  Returns the capture and the remainder after it. -/
def wsStarThenRun (keep : Char → Bool) (l : List Char) : Option (List Char × List Char) :=
  let wsp := l.takeWhile pyWs
  let rest := l.drop wsp.length
  let back : Option (List Char × List Char) :=
    match lastKeepIdx keep wsp with
    | some r =>
      let tail := l.drop r
      let cap := tail.takeWhile keep
      some (cap, tail.drop cap.length)
    | none => none
  match rest with
  | c :: _ =>
    if keep c then
      let cap := rest.takeWhile keep
      some (cap, rest.drop cap.length)
    else back
  | [] => back

/-- Consume `\s*\d+\.` (the part of the block separator after its leading
newline), returning the remainder. -/
def sepConsume (l : List Char) : Option (List Char) :=
  let l1 := l.dropWhile pyWs
  let ds := l1.takeWhile isDigitC
  if ds.isEmpty then none
  else
    match l1.drop ds.length with
    | '.' :: rest => some rest
    | _ => none

/-- The split `re.split(r'\n\s*\d+\.', text)` used for condition, Ayurvedic
and report blocks: scan for separators, emitting the pieces between them. -/
def splitNumGo : Nat → List Char → List Char → List (List Char)
  | 0, acc, rest => [acc.reverse ++ rest]
  | _ + 1, acc, [] => [acc.reverse]
  | fuel + 1, acc, c :: cs =>
    if c = '\n' then
      match sepConsume cs with
      | some rest => acc.reverse :: splitNumGo fuel [] rest
      | none => splitNumGo fuel (c :: acc) cs
    else splitNumGo fuel (c :: acc) cs

/-- The split `re.split(r'\n\s*\d+\.', text)`. -/
def splitNum (l : List Char) : List (List Char) := splitNumGo (l.length + 1) [] l

/-- Drop the first block when it strips to nothing
(`if blocks and not blocks[0].strip(): blocks = blocks[1:]`). -/
def dropEmptyHead : List (List Char) → List (List Char)
  | [] => []
  | b :: rest => if (pyStrip b).isEmpty then rest else b :: rest

/-- The sub `re.sub(r'^\d+\.\s*', '', name)` removing a numbering prefix. -/
def stripNumbering (l : List Char) : List Char :=
  let ds := l.takeWhile isDigitC
  if ds.isEmpty then l
  else
    match l.drop ds.length with
    | '.' :: rest => rest.dropWhile pyWs
    | _ => l

/-! ### The tier-1 condition matcher

`re.search(r'([^(]+)\s*\(Probability:\s*(\d+)%\)\s*:?\s*(.*?)(?=\n|$)',
block, re.DOTALL)`: the name is the maximal paren-free run before the first
`(` that opens a well-formed probability group; the description is the rest
of that line after an optional colon. -/

/-- Consume `(Probability:\s*(\d+)%\)` starting at a `(`, returning the
probability and the remainder. -/
def probGroup (l : List Char) : Option (Nat × List Char) :=
  match dropLitCS "(Probability:".data l with
  | some r1 =>
    let r2 := r1.dropWhile pyWs
    let ds := r2.takeWhile isDigitC
    if ds.isEmpty then none
    else
      match r2.drop ds.length with
      | '%' :: ')' :: rest => some (natOfDigits ds, rest)
      | _ => none
  | none => none

/-- Scan a block for the first `(` that opens a valid probability group and
is preceded by a non-empty paren-free run (accumulated in `acc`); on success
return the raw name (`group(1)`), the probability, and the raw single-line
description (`group(3)`, not yet stripped). -/
def condInfoGo : List Char → List Char → Option (List Char × Nat × List Char)
  | _, [] => none
  | acc, c :: cs =>
    if c = '(' then
      match (if acc.isEmpty then none else probGroup (c :: cs)) with
      | some (p, rest) =>
        let r1 := rest.dropWhile pyWs
        let r2 :=
          match r1 with
          | ':' :: t => t.dropWhile pyWs
          | _ => r1
        some (acc.reverse, p, r2.takeWhile (· ≠ '\n'))
      | none => condInfoGo [] cs
    else condInfoGo (c :: acc) cs

/-- The tier-1 per-block condition matcher. -/
def matchCondInfo (block : List Char) : Option (List Char × Nat × List Char) :=
  condInfoGo [] block

/-! ### The List Extractor `extract_list_items` -/

/-- The part of the numbered-item pattern after its `(?:^|\n)` anchor:
`\s*\d+\.\s*([^\n]+)`. -/
def numItemTail (l : List Char) : Option (List Char × List Char) :=
  let l1 := l.dropWhile pyWs
  let ds := l1.takeWhile isDigitC
  if ds.isEmpty then none
  else
    match l1.drop ds.length with
    | '.' :: r => wsStarThenRun (· ≠ '\n') r
    | _ => none

/-- Stop condition of the dash-item capture: `(?=(?:\n\s*[\-\*])|$)`. -/
def dashStop (l : List Char) : Bool :=
  (match l with
   | '\n' :: t =>
     match t.dropWhile pyWs with
     | c :: _ => c = '-' || c = '*'
     | [] => false
   | _ => false) || l.isEmpty || l = ['\n']

/-- The part of the dash-item pattern after its anchor:
`\s*[\-\*]\s*(.*?)(?=(?:\n\s*[\-\*])|$)` under `re.DOTALL`. -/
def dashItemTail (l : List Char) : Option (List Char × List Char) :=
  match l.dropWhile pyWs with
  | c :: r =>
    if c = '-' || c = '*' then scanStop0 dashStop (r.dropWhile pyWs)
    else none
  | [] => none

/-- Generic `finditer` loop for patterns anchored by `(?:^|\n)`: at the scan
start the bare tail may match; afterwards a match must consume a newline
first.  After each match scanning continues at the match end. -/
def anchoredGo (m : List Char → Option (α × List Char)) :
    Nat → Bool → List Char → List α
  | 0, _, _ => []
  | _ + 1, _, [] => []
  | fuel + 1, atStart, c :: cs =>
    match (if atStart then m (c :: cs) else none) with
    | some (item, rest) => item :: anchoredGo m fuel false rest
    | none =>
      if c = '\n' then
        match m cs with
        | some (item, rest) => item :: anchoredGo m fuel false rest
        | none => anchoredGo m fuel false cs
      else anchoredGo m fuel false cs

/-- `extract_list_items` on character lists: numbered items, then dash items,
then the line-splitting fallbacks; every chosen item is cleaned, and items
that strip to nothing are dropped before cleaning. -/
def extractListItemsL (text : List Char) : List (List Char) :=
  if (pyStrip text).isEmpty then []
  else
    let numbered := (anchoredGo numItemTail (text.length + 1) true text).map pyStrip
    let items :=
      if !numbered.isEmpty then numbered
      else
        let dashes := (anchoredGo dashItemTail (text.length + 1) true text).map pyStrip
        if !dashes.isEmpty then dashes
        else
          let lines := ((splitNl text).map pyStrip).filter (fun x => !x.isEmpty)
          if lines.length < 8 || lines.any (fun line => 100 < line.length) then lines
          else
            lines.filter (fun line =>
              !(pyIsUpper line || line.getLast? = some ':') && 1 < (pyWords line).length)
    (items.filter (fun i => !(pyStrip i).isEmpty)).map cleanTextL

/-- `extract_list_items` from `backend/utils.py`. -/
def extract_list_items (s : String) : List String :=
  (extractListItemsL s.data).map (fun l => ⟨l⟩)

/-! ### `extract_field_from_block`

`re.search(pattern + r'(.*?)(?=' + markers + r'|$)', block, re.DOTALL |
re.IGNORECASE)` where `pattern` is `- Purpose:\s*` etc., followed by the
numbered-list re-formatting of the captured content. -/

/-- The five field markers of a diagnostic-report block. -/
def fieldMarkers : List (List Char) :=
  ["- Purpose:".data, "- Benefits:".data, "- Analysis Details:".data,
   "- Preparation Required:".data, "- Recommendation Reason:".data]

/-- Stop condition of the main field capture: the next field marker
(case-insensitive) or the end of the block. -/
def markerStop (l : List Char) : Bool :=
  fieldMarkers.any (fun m => startsCI m l) || l.isEmpty || l = ['\n']

/-- Stop condition of the fallback field capture: `(?=\n\s*\d+\.|$)`. -/
def nlNumStop (l : List Char) : Bool :=
  (match l with
   | '\n' :: t => (sepConsume t).isSome
   | _ => false) || l.isEmpty || l = ['\n']

/-- The `re.MULTILINE` test `re.search(r'^\s*\d+\.', content, re.MULTILINE)`
checking whether the content already carries numbered lines: the prefix
pattern at the start of the string or after any newline. -/
def hasNumLineAfterNl : List Char → Bool
  | [] => false
  | c :: cs => (c = '\n' && (sepConsume cs).isSome) || hasNumLineAfterNl cs

/-- Whether the content has a numbered line (see `hasNumLineAfterNl`). -/
def hasNumLine (l : List Char) : Bool := (sepConsume l).isSome || hasNumLineAfterNl l

/-- Stop condition of the bullet-item capture: `(?=(?:\n\s*[-•])|$)`. -/
def bulletStop (l : List Char) : Bool :=
  (match l with
   | '\n' :: t =>
     match t.dropWhile pyWs with
     | c :: _ => c = '-' || c = '•'
     | [] => false
   | _ => false) || l.isEmpty || l = ['\n']

/-- The bullet-item pattern after its anchor: `\s*[-•]\s*(.*?)` up to
`bulletStop`, under `re.DOTALL`. -/
def bulletItemTail (l : List Char) : Option (List Char × List Char) :=
  match l.dropWhile pyWs with
  | c :: r =>
    if c = '-' || c = '•' then scanStop0 bulletStop (r.dropWhile pyWs)
    else none
  | [] => none

/-- The enumeration `"".join(f"{i}. {line}\n\n")` over the collected lines,
followed by a final strip. -/
def numberJoinGo : Nat → List (List Char) → List Char
  | _, [] => []
  | i, x :: xs =>
    (toString i).data ++ '.' :: ' ' :: (x ++ '\n' :: '\n' :: numberJoinGo (i + 1) xs)

/-- Numbered-list join with final strip. -/
def numberJoin (lines : List (List Char)) : List Char := pyStrip (numberJoinGo 1 lines)

/-- Stop condition of the lazy group in
`re.sub(r'(\d+\..*?)(?=\s*\d+\.|$)', r'\1\n\n', content)`. -/
def subNumStop (l : List Char) : Bool :=
  (sepConsume l).isSome || l.isEmpty || l = ['\n']

/-- The lazy `.*?` of the numbered-spacing sub: single-line (no `re.DOTALL`),
so the expansion fails upon reaching a newline before a stop position. -/
def subNumCapture : List Char → Option (List Char × List Char)
  | [] => if subNumStop [] then some ([], []) else none
  | c :: cs =>
    if subNumStop (c :: cs) then some ([], c :: cs)
    else if c = '\n' then none
    else (subNumCapture cs).map fun p => (c :: p.1, p.2)

/-- One match attempt of the numbered-spacing sub at the current position. -/
def subNumAt (l : List Char) : Option (List Char × List Char) :=
  let ds := l.takeWhile isDigitC
  if ds.isEmpty then none
  else
    match l.drop ds.length with
    | '.' :: r => (subNumCapture r).map fun p => (ds ++ '.' :: p.1, p.2)
    | _ => none

/-- The substitution loop of `re.sub(r'(\d+\..*?)(?=\s*\d+\.|$)', r'\1\n\n',
content)`: every match is replaced by itself followed by a blank line. -/
def subNumGo : Nat → List Char → List Char
  | 0, l => l
  | _ + 1, [] => []
  | fuel + 1, c :: cs =>
    match subNumAt (c :: cs) with
    | some (m, rest) => m ++ '\n' :: '\n' :: subNumGo fuel rest
    | none => c :: subNumGo fuel cs

/-- The shared re-formatting applied to a captured (stripped) field value:
already-numbered content gets blank lines inserted between its numbers;
otherwise the content is split into bullet items (when the attempt uses the
bullet check and a bullet character occurs) or lines, and re-joined as a
numbered list. -/
def formatFieldContent (content : List Char) (checkBullets : Bool) : List Char :=
  if !hasNumLine content then
    let bullets :=
      if checkBullets && (content.contains '-' || content.contains '•') then
        (anchoredGo bulletItemTail (content.length + 1) true content).map pyStrip
      else []
    let lines :=
      if bullets.isEmpty then
        ((splitNl content).map pyStrip).filter (fun x => !x.isEmpty)
      else bullets
    if lines.isEmpty then content else numberJoin lines
  else pyStrip (subNumGo (content.length + 1) content)

/-- One search attempt of `label + r'\s*(.*?)'` up to `stop`, leftmost-first
over the block, case-insensitively. -/
def fieldAttempt (label : List Char) (stop : List Char → Bool) (block : List Char) :
    Option (List Char) :=
  searchFirst (fun l =>
    match dropLitCI label l with
    | some r => (scanStop0 stop (r.dropWhile pyWs)).map (·.1)
    | none => none) block

/-- `extract_field_from_block` from `backend/utils.py`: the main
marker-bounded attempt, the numbered-line-bounded fallback, and the
grab-everything last resort (each formatted; the last resort skips the
bullet check).  All three attempts require the label, so a block without the
label yields the empty string. -/
def extractFieldFromBlock (block : List Char) (label : List Char) : List Char :=
  match fieldAttempt label markerStop block with
  | some cap => formatFieldContent (pyStrip cap) true
  | none =>
    match fieldAttempt label nlNumStop block with
    | some cap => formatFieldContent (pyStrip cap) true
    | none =>
      match searchFirst (fun l => dropLitCI label l) block with
      | some r => formatFieldContent (pyStrip (r.dropWhile pyWs)) false
      | none => []

/-! ### Diagnostic-report extraction (the `REPORTS REQUIRED` section) -/

/-- Empty field values are dropped from the report dict. -/
def mkOptField (l : List Char) : Option String :=
  if l.isEmpty then none else some ⟨l⟩

/-- The `has_markers` check of a report block: case-sensitive containment of
any of the five field markers. -/
def hasReportMarkers (block : List Char) : Bool :=
  fieldMarkers.any (fun m => containsSub m block)

/-- The five extracted fields of a report block, in marker order. -/
def reportFields (block : List Char) : List (List Char) :=
  [extractFieldFromBlock block "- Purpose:".data,
   extractFieldFromBlock block "- Benefits:".data,
   extractFieldFromBlock block "- Analysis Details:".data,
   extractFieldFromBlock block "- Preparation Required:".data,
   extractFieldFromBlock block "- Recommendation Reason:".data]

/-- The `field_count` of a report block: how many of its five extracted
fields are non-empty. -/
def reportFieldCount (block : List Char) : Nat :=
  (reportFields block).countP (fun f => !f.isEmpty)

/-- First-pass extraction of one report block: first line as name, the
case-sensitive marker presence check, the five field extractions, the
3-of-5 threshold, and the more-than-just-a-name check. -/
def firstPassReport (block : List Char) : Option ReportItem :=
  if (pyStrip block).isEmpty then none
  else
    match wsStarThenRun (· ≠ '\n') block with
    | none => none
    | some (nameRaw, _) =>
      let name := pyStrip nameRaw
      if !hasReportMarkers block then none
      else
        let purpose := extractFieldFromBlock block "- Purpose:".data
        let benefits := extractFieldFromBlock block "- Benefits:".data
        let analysisDetails := extractFieldFromBlock block "- Analysis Details:".data
        let preparationRequired := extractFieldFromBlock block "- Preparation Required:".data
        let recommendationReason := extractFieldFromBlock block "- Recommendation Reason:".data
        let cnt := reportFieldCount block
        if cnt < 3 then none
        else if 1 < (if name.isEmpty then 0 else 1) + cnt then
          some ⟨⟨name⟩, mkOptField purpose, mkOptField benefits, mkOptField analysisDetails,
            mkOptField preparationRequired, mkOptField recommendationReason⟩
        else none

/-- The alternative pass `re.findall(r'(?:\d+\.\s*)([^\n\-]+)', reports_text)`
match attempt (at any position, no anchor). -/
def altNameAt (l : List Char) : Option (List Char × List Char) :=
  let ds := l.takeWhile isDigitC
  if ds.isEmpty then none
  else
    match l.drop ds.length with
    | '.' :: r => wsStarThenRun (fun c => c ≠ '\n' && c ≠ '-') r
    | _ => none

/-- The `findall` loop over report-name candidates. -/
def altNamesGo : Nat → List Char → List (List Char)
  | 0, _ => []
  | _ + 1, [] => []
  | fuel + 1, c :: cs =>
    match altNameAt (c :: cs) with
    | some (cap, rest) => cap :: altNamesGo fuel rest
    | none => altNamesGo fuel cs

/-- Processing of one candidate name in the alternative report pass: locate
the name, slice the text up to the next `\n1.` … `\n5.` marker (or the end),
extract the five fields from the slice, and keep the report when anything
beyond the name was found. -/
def altPassReport (reportsText : List Char) (nameRaw : List Char) : Option ReportItem :=
  let name := pyStrip nameRaw
  match pyFind name reportsText with
  | none => none
  | some ni =>
    let afterName := ni + name.length
    let nextNameIdx := pyFindFrom "\n".data reportsText afterName
    let nextRep :=
      ((((pyFindFrom "\n1.".data reportsText afterName).orElse
          (fun _ => pyFindFrom "\n2.".data reportsText afterName)).orElse
          (fun _ => pyFindFrom "\n3.".data reportsText afterName)).orElse
          (fun _ => pyFindFrom "\n4.".data reportsText afterName)).orElse
          (fun _ => pyFindFrom "\n5.".data reportsText afterName)
    match nextNameIdx with
    | none => none
    | some _ =>
      let endIdx := match nextRep with | some i => i | none => reportsText.length
      let blockSlice := (reportsText.drop ni).take (endIdx - ni)
      let purpose := extractFieldFromBlock blockSlice "- Purpose:".data
      let benefits := extractFieldFromBlock blockSlice "- Benefits:".data
      let analysisDetails := extractFieldFromBlock blockSlice "- Analysis Details:".data
      let preparationRequired := extractFieldFromBlock blockSlice "- Preparation Required:".data
      let recommendationReason := extractFieldFromBlock blockSlice "- Recommendation Reason:".data
      let cnt := [purpose, benefits, analysisDetails, preparationRequired,
        recommendationReason].countP (fun f => !f.isEmpty)
      if 1 < (if name.isEmpty then 0 else 1) + cnt then
        some ⟨⟨name⟩, mkOptField purpose, mkOptField benefits, mkOptField analysisDetails,
          mkOptField preparationRequired, mkOptField recommendationReason⟩
      else none

/-- Extraction of the `reportsRequired` list from the section body: the
first block-wise pass, then, when it produced nothing and the section text
is non-empty, the alternative name-scan pass. -/
def reportsFromText (reportsText : List Char) : List ReportItem :=
  let firstPass := (dropEmptyHead (splitNum reportsText)).filterMap firstPassReport
  if firstPass.isEmpty && !(pyStrip reportsText).isEmpty then
    (altNamesGo (reportsText.length + 1) reportsText).filterMap (altPassReport reportsText)
  else firstPass

/-! ### Ayurvedic extraction (the `AYURVEDIC MEDICATION` section) -/

/-- A labeled sub-field of an Ayurvedic block:
`re.search(label + r'(.*?)(?=stop|$)', block, re.DOTALL)` (case-sensitive),
with the capture stripped. -/
def ayurField (block label : List Char) (stop : List Char → Bool) : List Char :=
  match searchFirst (fun l =>
    match dropLitCS label l with
    | some r => (scanStop0 stop r).map (·.1)
    | none => none) block with
  | some cap => pyStrip cap
  | none => []

/-- Stop of the description capture: `(?=- Importance:|$)`. -/
def ayurDescStop (l : List Char) : Bool :=
  startsCS "- Importance:".data l || l.isEmpty || l = ['\n']

/-- Stop of the importance capture: `(?=- Benefits:|$)`. -/
def ayurImpStop (l : List Char) : Bool :=
  startsCS "- Benefits:".data l || l.isEmpty || l = ['\n']

/-- Stop of the benefits capture: `(?=\d+\.|$)`. -/
def ayurBenStop (l : List Char) : Bool :=
  (let ds := l.takeWhile isDigitC
   !ds.isEmpty && startsCS ['.'] (l.drop ds.length)) || l.isEmpty || l = ['\n']

/-- One Ayurvedic recommendation block: first line as name, the three
labeled fields, kept only when the name plus at least one field is present. -/
def ayurRecOfBlock (block : List Char) : Option AyurRec :=
  if (pyStrip block).isEmpty then none
  else
    match wsStarThenRun (· ≠ '\n') block with
    | none => none
    | some (nameRaw, _) =>
      let name := pyStrip nameRaw
      let description := ayurField block "- Description:".data ayurDescStop
      let importance := ayurField block "- Importance:".data ayurImpStop
      let benefits := ayurField block "- Benefits:".data ayurBenStop
      if !name.isEmpty && (!description.isEmpty || !importance.isEmpty || !benefits.isEmpty) then
        some ⟨⟨name⟩, ⟨description⟩, ⟨importance⟩, ⟨benefits⟩⟩
      else none

/-- All structured recommendations of the Ayurvedic section body. -/
def ayurFromText (ayurText : List Char) : List AyurRec :=
  (dropEmptyHead (splitNum ayurText)).filterMap ayurRecOfBlock

/-! ### Meal extraction (the `INDIAN MEAL RECOMMENDATIONS` section) -/

/-- A meal sub-capture `label(.*?)(?=stop|$)` (case-insensitive, `DOTALL`). -/
def mealField (label : List Char) (stop : List Char → Bool) (m : List Char) :
    Option (List Char) :=
  searchFirst (fun l =>
    match dropLitCI label l with
    | some rest => (scanStop0 stop rest).map (·.1)
    | none => none) m

/-- Stop of the breakfast capture: `(?=Lunch:|$)`. -/
def lunchStop (l : List Char) : Bool :=
  startsCI "Lunch:".data l || l.isEmpty || l = ['\n']

/-- Stop of the lunch capture: `(?=Dinner:|$)`. -/
def dinnerStop (l : List Char) : Bool :=
  startsCI "Dinner:".data l || l.isEmpty || l = ['\n']

/-- Stop of the dinner capture: `(?=$)`. -/
def endStop (l : List Char) : Bool := l.isEmpty || l = ['\n']

/-- The case-insensitive search for the end index of the first occurrence of
`pat`, used for the diet-note occurrence test. -/
def ciFindEndGo (pat : List Char) : List Char → Nat → Option Nat
  | [], i => if startsCI pat [] then some (i + pat.length) else none
  | c :: t, i =>
    if startsCI pat (c :: t) then some (i + pat.length)
    else ciFindEndGo pat t (i + 1)

/-- The diet-note attempt at one position: the literal introduction, then
(`.*` being single-line) the rest of the line must contain
`diet preference` followed by a later `.`; the whole match runs through the
last dot of the line. -/
def dietNoteAt (l : List Char) : Option (List Char) :=
  match dropLitCI "These meal recommendations are based on your".data l with
  | some rest =>
    let line := rest.takeWhile (· ≠ '\n')
    match ciFindEndGo "diet preference".data line 0, lastKeepIdx (· = '.') line with
    | some e, some d =>
      if e ≤ d then
        some (l.take ("These meal recommendations are based on your".length + d + 1))
      else none
    | _, _ => none
  | none => none

/-- The diet-note search
`re.search(rf'These meal recommendations are based on your.*diet preference.*\.',
meal_text, re.IGNORECASE)`, yielding `group(0)`. -/
def dietNote (mealText : List Char) : Option (List Char) :=
  searchFirst dietNoteAt mealText

/-! ### Tier-1 per-condition sub-extractions over the whole response text -/

/-- Existential test for `\w+\s*litA\s*litB` (used inside lookaheads, where
the word run may stop at any point to let the literal begin). -/
def wordThenLit (litA litB : List Char) : List Char → Bool
  | [] => false
  | c :: cs =>
    isWordC c &&
      ((match dropLitCI litA (cs.dropWhile pyWs) with
        | some r => startsCI litB (r.dropWhile pyWs)
        | none => false)
       || wordThenLit litA litB cs)

/-- The lookahead alternative `\d+\.\s*\w+\s*\(Probability` (next numbered
condition head). -/
def numCondStop (l : List Char) : Bool :=
  let ds := l.takeWhile isDigitC
  !ds.isEmpty &&
    (match l.drop ds.length with
     | '.' :: r =>
       let r1 := r.dropWhile pyWs
       let wd := r1.takeWhile isWordC
       !wd.isEmpty && startsCI "(Probability".data ((r1.drop wd.length).dropWhile pyWs)
     | _ => false)

/-- Stop of the primary recommended-actions capture:
`(?=NAME\s*PREVENTIVE|\d+\.\s*\w+\s*\(Probability|RECOMMENDATION:|$)` (under
`re.IGNORECASE` the upper-cased and plain name alternatives coincide). -/
def actStop (nm : List Char) (l : List Char) : Bool :=
  (match dropLitCI nm l with
   | some r => startsCI "PREVENTIVE".data (r.dropWhile pyWs)
   | none => false)
  || numCondStop l || startsCI "RECOMMENDATION:".data l || l.isEmpty || l = ['\n']

/-- Stop of the alternative recommended-actions capture:
`(?=\w+\s*PREVENTIVE\s*MEASURES|RECOMMENDATION:|$)`. -/
def altActStop (l : List Char) : Bool :=
  wordThenLit "PREVENTIVE".data "MEASURES".data l
  || startsCI "RECOMMENDATION:".data l || l.isEmpty || l = ['\n']

/-- Stop of the primary preventive-measures capture:
`(?=\d+\.\s*\w+\s*\(Probability|RECOMMENDATION:|$)`. -/
def prevStop (l : List Char) : Bool :=
  numCondStop l || startsCI "RECOMMENDATION:".data l || l.isEmpty || l = ['\n']

/-- Stop of the alternative preventive-measures capture:
`(?=\w+\s*RECOMMENDED\s*ACTIONS|RECOMMENDATION:|$)`. -/
def altPrevStop (l : List Char) : Bool :=
  wordThenLit "RECOMMENDED".data "ACTIONS".data l
  || startsCI "RECOMMENDATION:".data l || l.isEmpty || l = ['\n']

/-- Search for `NAME\s*RECOMMENDED\s*ACTIONS:` (case-insensitively) and
capture lazily up to `stop`. -/
def actionsSearch (nm : List Char) (stop : List Char → Bool) (text : List Char) :
    Option (List Char) :=
  searchFirst (fun l =>
    match dropLitCI nm l with
    | some r =>
      match dropLitCI "RECOMMENDED".data (r.dropWhile pyWs) with
      | some r2 =>
        match dropLitCI "ACTIONS:".data (r2.dropWhile pyWs) with
        | some r3 => (scanStop0 stop r3).map (·.1)
        | none => none
      | none => none
    | none => none) text

/-- Search for `NAME\s*PREVENTIVE\s*MEASURES:` and capture up to `stop`. -/
def prevSearch (nm : List Char) (stop : List Char → Bool) (text : List Char) :
    Option (List Char) :=
  searchFirst (fun l =>
    match dropLitCI nm l with
    | some r =>
      match dropLitCI "PREVENTIVE".data (r.dropWhile pyWs) with
      | some r2 =>
        match dropLitCI "MEASURES:".data (r2.dropWhile pyWs) with
        | some r3 => (scanStop0 stop r3).map (·.1)
        | none => none
      | none => none
    | none => none) text

/-- The recommended-actions capture: the primary pattern first, the
alternative pattern only on failure. -/
def actionsCapture (nm text : List Char) : Option (List Char) :=
  match actionsSearch nm (actStop nm) text with
  | some cap => some cap
  | none => actionsSearch nm altActStop text

/-- The preventive-measures capture: the primary pattern first, the
alternative pattern only on failure. -/
def prevCapture (nm text : List Char) : Option (List Char) :=
  match prevSearch nm prevStop text with
  | some cap => some cap
  | none => prevSearch nm altPrevStop text

/-- The comprehension `[clean_text(x) for x in extract_list_items(cap.strip())
if x.strip()]` applied to a captured sub-field. -/
def cleanedList (cap : List Char) : List String :=
  (((extractListItemsL (pyStrip cap)).filter
      (fun a => !(pyStrip a).isEmpty)).map cleanTextL).map (fun l => ⟨l⟩)

/-! ### The dedicated `POSSIBLE CONDITIONS` boundary -/

/-- Stop of `re.search(r'POSSIBLE CONDITIONS:(.*?)(?=RECOMMENDATION:|$)',
text, re.DOTALL | re.IGNORECASE)`. -/
def pcStop (l : List Char) : Bool :=
  startsCI "RECOMMENDATION:".data l || l.isEmpty || l = ['\n']

/-- The conditions-section text: leftmost case-insensitive heading
occurrence, lazy capture up to `RECOMMENDATION:` or the end, then the
`.strip()` of line 150. -/
def possibleConditionsText (text : List Char) : Option (List Char) :=
  (searchFirst (fun l =>
    match dropLitCI "POSSIBLE CONDITIONS:".data l with
    | some rest => (scanStop0 pcStop rest).map (·.1)
    | none => none) text).map pyStrip

/-! ### The tier-2 fallback condition pattern

`re.findall(r'(?:^|\n)(?:\d+\.\s*)([^(\r\n]+)(?:\((?:Probability:?\s*)?(\d+)%\))([^:\r\n]*):?(.*?)(?=(?:\n\s*\d+\.)|(?:\n\s*[A-Z][A-Z\s\']*\s*RECOMMENDED\s*ACTIONS)|$)'`
with `re.DOTALL` (case-sensitive). -/

/-- `(\d+)%\)` after the optional probability label. -/
def probDigits (l : List Char) : Option (Nat × List Char) :=
  let ds := l.takeWhile isDigitC
  if ds.isEmpty then none
  else
    match l.drop ds.length with
    | '%' :: ')' :: rest => some (natOfDigits ds, rest)
    | _ => none

/-- `(?:Probability:?\s*)?(\d+)%\)` after an opening paren: the optional
label is tried first and dropped via backtracking when the digits then
fail. -/
def probAfterParen (ci : Bool) (r : List Char) : Option (Nat × List Char) :=
  match (if ci then dropLitCI "Probability".data r else dropLitCS "Probability".data r) with
  | some r2 =>
    let r3 :=
      match r2 with
      | ':' :: t => t.dropWhile pyWs
      | _ => r2.dropWhile pyWs
    (probDigits r3).orElse (fun _ => probDigits r)
  | none => probDigits r

/-- `\((?:Probability:?\s*)?(\d+)%\)` (case-sensitive, tier 2). -/
def tier2Prob (l : List Char) : Option (Nat × List Char) :=
  match l with
  | '(' :: r => probAfterParen false r
  | _ => none

/-- Existential suffix test for `[A-Z\s\']*\s*RECOMMENDED\s*ACTIONS`
(case-sensitive): the class star may stop anywhere to let the literal
begin. -/
def raSuffix : List Char → Bool
  | [] => false
  | c :: cs =>
    (match dropLitCS "RECOMMENDED".data ((c :: cs).dropWhile pyWs) with
     | some r => startsCS "ACTIONS".data (r.dropWhile pyWs)
     | none => false)
    || (clsChar c && raSuffix cs)

/-- The lookahead alternative `\n\s*[A-Z][A-Z\s\']*\s*RECOMMENDED\s*ACTIONS`
after its leading newline. -/
def t2RaStop (t : List Char) : Bool :=
  match t.dropWhile pyWs with
  | c :: cs => isUpperAZ c && raSuffix cs
  | [] => false

/-- The full stop condition of the tier-2 description capture. -/
def tier2Stop (l : List Char) : Bool :=
  (match l with
   | '\n' :: t => (sepConsume t).isSome || t2RaStop t
   | _ => false) || l.isEmpty || l = ['\n']

/-- The tier-2 pattern after its `(?:^|\n)` anchor, yielding the four
captures and the continuation point. -/
def tier2Tail (l : List Char) :
    Option ((List Char × Nat × List Char × List Char) × List Char) :=
  let ds := l.takeWhile isDigitC
  if ds.isEmpty then none
  else
    match l.drop ds.length with
    | '.' :: r =>
      match wsStarThenRun (fun c => c ≠ '(' && c ≠ '\r' && c ≠ '\n') r with
      | some (g1, r1) =>
        match tier2Prob r1 with
        | some (p, r2) =>
          let g3 := r2.takeWhile (fun c => c ≠ ':' && c ≠ '\r' && c ≠ '\n')
          let r3 := r2.drop g3.length
          let r4 := match r3 with | ':' :: t => t | _ => r3
          match scanStop0 tier2Stop r4 with
          | some (g4, rest) => some ((g1, p, g3, g4), rest)
          | none => none
        | none => none
      | none => none
    | _ => none

/-- The tier-2 `findall` over a section body. -/
def tier2FindAll (l : List Char) : List (List Char × Nat × List Char × List Char) :=
  anchoredGo tier2Tail (l.length + 1) true l

/-! ### The tier-3 fallback from per-condition section headings -/

/-- Existential chain test for `(?:\s+\w+)*\s+RECOMMENDED\s+ACTIONS` after an
initial word: repeatedly a whitespace run then either the terminating
`RECOMMENDED\s+ACTIONS` literal or one more word (fuelled; each step
consumes at least two characters). -/
def t3Chain : Nat → List Char → Bool
  | 0, _ => false
  | fuel + 1, l =>
    let w := l.takeWhile pyWs
    if w.isEmpty then false
    else
      let r := l.drop w.length
      (match dropLitCI "RECOMMENDED".data r with
       | some r2 =>
         let w2 := r2.takeWhile pyWs
         !w2.isEmpty && startsCI "ACTIONS".data (r2.drop w2.length)
       | none => false)
      ||
      (let wd := r.takeWhile isWordC
       !wd.isEmpty && t3Chain fuel (r.drop wd.length))

/-- The tier-3 section-name search
`re.search(r'(\w+)(?:\s+\w+)*\s+RECOMMENDED\s+ACTIONS', section_name,
re.IGNORECASE)`, yielding `group(1)` (the first word of the chain). -/
def tier3SecName (l : List Char) : Option (List Char) :=
  searchFirst (fun t =>
    let wd := t.takeWhile isWordC
    if wd.isEmpty then none
    else if t3Chain (t.length + 1) (t.drop wd.length) then some wd
    else none) l

/-- The backtracking `(?:[^\d\n]*)\(` of the tier-3 condition pattern: the
greedy run gives back characters from the right, so opening parens are tried
rightmost-first until the probability group parses. -/
def t3Parens : List Char → Option (Nat × List Char)
  | [] => none
  | c :: cs =>
    if isDigitC c || c = '\n' then none
    else
      match t3Parens cs with
      | some r => some r
      | none => if c = '(' then probAfterParen true cs else none

/-- The tier-3 probability/description search
`re.search(r'(\d+)\.\s*NAME(?:[^\d\n]*)\((?:Probability:?\s*)?(\d+)%\)([^:\n]*)',
response_text, re.IGNORECASE)`, yielding the probability and `group(3)`. -/
def t3CondSearch (nm text : List Char) : Option (Nat × List Char) :=
  searchFirst (fun l =>
    let ds := l.takeWhile isDigitC
    if ds.isEmpty then none
    else
      match l.drop ds.length with
      | '.' :: r =>
        match dropLitCI nm (r.dropWhile pyWs) with
        | some r2 =>
          (t3Parens r2).map fun p =>
            (p.1, p.2.takeWhile (fun c => c ≠ ':' && c ≠ '\n'))
        | none => none
      | _ => none) text

/-! ### The fixed records -/

/-- The result dict initialized at the top of `parse_gemini_response`. -/
def initRecord : AnalysisRecord where
  possibleConditions := []
  recommendation := ""
  urgency := "medium"
  followUpActions := []
  riskFactors := []
  mealRecommendations := { breakfast := [], lunch := [], dinner := [], note := "" }
  exercisePlan := []
  diseases := []
  preventiveMeasures := []
  medicineRecommendations := []
  ayurvedicMedication :=
    some { recommendations := [], description := none, benefits := none, importance := none }
  dos := []
  donts := []
  conditionSpecificData := []
  reportsRequired := []
  healthScore := 0

/-- The fixed record returned for an empty (falsy) input string. -/
def emptyResponseRecord : AnalysisRecord where
  possibleConditions :=
    [{ name := "Analysis Failed", probability := 100,
       description := "The analysis could not be completed due to an error.",
       category := "error" }]
  recommendation := "Please try again or consult a healthcare professional."
  urgency := "medium"
  followUpActions := ["Please try again later"]
  riskFactors := ["Unable to analyze symptoms"]
  mealRecommendations := { breakfast := [], lunch := [], dinner := [], note := "" }
  exercisePlan := []
  diseases := []
  preventiveMeasures := []
  medicineRecommendations := []
  ayurvedicMedication :=
    some { recommendations := [], description := some "", benefits := some [],
           importance := some "" }
  dos := []
  donts := []
  conditionSpecificData := []
  reportsRequired := []
  healthScore := 0

/-- The fixed record built by the top-level `except` handler, the error text
carried in the description of the single condition. -/
def exceptionRecord (e : String) : AnalysisRecord where
  possibleConditions :=
    [{ name := "Error Analyzing Symptoms", probability := 100,
       description := "There was an error analyzing your symptoms: " ++ e,
       category := "error" }]
  recommendation := "Please try again later or consult a healthcare professional."
  urgency := "medium"
  followUpActions := ["Try again later", "Consult a healthcare professional"]
  riskFactors := ["Unable to analyze symptoms properly"]
  mealRecommendations := { breakfast := [], lunch := [], dinner := [], note := "" }
  exercisePlan := []
  diseases := []
  preventiveMeasures := []
  medicineRecommendations := []
  ayurvedicMedication :=
    some { recommendations := [], description := some "", benefits := some [],
           importance := some "" }
  dos := ["Consult a healthcare professional"]
  donts := ["Don't rely solely on automated analysis"]
  conditionSpecificData := []
  reportsRequired := []
  healthScore := 0

/-! ### The pipeline steps of `parse_gemini_response` -/

/-- Tier-1 processing of one condition block: the name/probability match,
the appends into `possibleConditions` and `conditionSpecificData`, and the
per-condition recommended-actions / preventive-measures extractions over the
full response text. -/
def tier1Block (text : List Char) (r : AnalysisRecord) (block : List Char) :
    AnalysisRecord :=
  if (pyStrip block).isEmpty then r
  else
    match matchCondInfo block with
    | none => r
    | some (fullName, prob, descRaw) =>
      let name : String := ⟨stripNumbering (pyStrip fullName)⟩
      let desc : String := ⟨pyStrip descRaw⟩
      let r1 := { r with
        possibleConditions := r.possibleConditions ++
          [{ name := name, probability := prob, description := desc, category := "general" }],
        conditionSpecificData :=
          dictInsert r.conditionSpecificData name ⟨[], []⟩ }
      let r2 :=
        match actionsCapture name.data text with
        | some cap =>
          let f := fun d => { d with recommendedActions := cleanedList (pyStrip cap) }
          { r1 with conditionSpecificData := dictUpdate r1.conditionSpecificData name f }
        | none => r1
      match prevCapture name.data text with
      | some cap =>
        let f := fun d => { d with preventiveMeasures := cleanedList (pyStrip cap) }
        { r2 with conditionSpecificData := dictUpdate r2.conditionSpecificData name f }
      | none => r2

/-- Tier 1: the dedicated conditions-section boundary, the numbered split,
and the per-block processing. -/
def stepTier1 (text : List Char) (r : AnalysisRecord) : AnalysisRecord :=
  match possibleConditionsText text with
  | none => r
  | some condText => (dropEmptyHead (splitNum condText)).foldl (tier1Block text) r

/-- Tier 2: the looser pattern over the generic `POSSIBLE CONDITIONS`
section body; no per-condition sub-extraction. -/
def stepTier2 (sections : List (String × String)) (r : AnalysisRecord) : AnalysisRecord :=
  match dictGet sections "POSSIBLE CONDITIONS" with
  | none => r
  | some condText =>
    (tier2FindAll condText.data).foldl (fun r m =>
      let name : String := ⟨pyStrip m.1⟩
      let desc : String := ⟨pyStrip (m.2.2.1 ++ ' ' :: m.2.2.2)⟩
      { r with
        possibleConditions := r.possibleConditions ++
          [{ name := name, probability := m.2.1, description := desc, category := "general" }],
        conditionSpecificData := dictInsert r.conditionSpecificData name ⟨[], []⟩ }) r

/-- Tier 3: condition names inferred from `<NAME> RECOMMENDED ACTIONS`
section headings, with probability and description backfilled from the full
text; duplicates are not appended. -/
def stepTier3 (sections : List (String × String)) (text : List Char)
    (r : AnalysisRecord) : AnalysisRecord :=
  sections.foldl (fun r kv =>
    match tier3SecName kv.1.data with
    | none => r
    | some condNameRaw =>
      let condName : String := ⟨pyStrip condNameRaw⟩
      let pd :=
        match t3CondSearch condName.data text with
        | some (p, d) => (p, (⟨pyStrip d⟩ : String))
        | none => (0, "")
      if (r.possibleConditions.map Condition.name).contains condName then r
      else
        { r with
          possibleConditions := r.possibleConditions ++
            [{ name := condName, probability := pd.1, description := pd.2,
               category := "general" }],
          conditionSpecificData := dictInsert r.conditionSpecificData condName ⟨[], []⟩ }) r

/-- The `RECOMMENDATION` section: stored cleaned. -/
def stepRecommendation (secs : List (String × String)) (r : AnalysisRecord) :
    AnalysisRecord :=
  match dictGet secs "RECOMMENDATION" with
  | some t => { r with recommendation := clean_text t }
  | none => r

/-- The `URGENCY LEVEL` section: keyword containment on the lowered body. -/
def stepUrgency (secs : List (String × String)) (r : AnalysisRecord) : AnalysisRecord :=
  match dictGet secs "URGENCY LEVEL" with
  | some t =>
    let low := pyLower t.data
    if containsSub "high".data low then { r with urgency := "high" }
    else if containsSub "medium".data low || containsSub "moderate".data low then
      { r with urgency := "medium" }
    else { r with urgency := "low" }
  | none => r

/-- The `FOLLOW-UP ACTIONS` section (note that the section splitter's
heading class has no hyphen, so this key never actually occurs). -/
def stepFollowUp (secs : List (String × String)) (r : AnalysisRecord) : AnalysisRecord :=
  match dictGet secs "FOLLOW-UP ACTIONS" with
  | some t => { r with followUpActions := extract_list_items t }
  | none => r

/-- The `RISK FACTORS` section. -/
def stepRiskFactors (secs : List (String × String)) (r : AnalysisRecord) : AnalysisRecord :=
  match dictGet secs "RISK FACTORS" with
  | some t => { r with riskFactors := extract_list_items t }
  | none => r

/-- The `INDIAN MEAL RECOMMENDATIONS` section: the three meal captures and
the diet note. -/
def stepMeals (secs : List (String × String)) (r : AnalysisRecord) : AnalysisRecord :=
  match dictGet secs "INDIAN MEAL RECOMMENDATIONS" with
  | none => r
  | some mt =>
    let m := mt.data
    let r1 :=
      match mealField "Breakfast:".data lunchStop m with
      | some cap => { r with mealRecommendations :=
          { r.mealRecommendations with breakfast := (extractListItemsL cap).map (⟨·⟩) } }
      | none => r
    let r2 :=
      match mealField "Lunch:".data dinnerStop m with
      | some cap => { r1 with mealRecommendations :=
          { r1.mealRecommendations with lunch := (extractListItemsL cap).map (⟨·⟩) } }
      | none => r1
    let r3 :=
      match mealField "Dinner:".data endStop m with
      | some cap => { r2 with mealRecommendations :=
          { r2.mealRecommendations with dinner := (extractListItemsL cap).map (⟨·⟩) } }
      | none => r2
    match dietNote m with
    | some g0 => { r3 with mealRecommendations :=
        { r3.mealRecommendations with note := ⟨g0⟩ } }
    | none => r3

/-- The `EXERCISE PLAN` section. -/
def stepExercise (secs : List (String × String)) (r : AnalysisRecord) : AnalysisRecord :=
  match dictGet secs "EXERCISE PLAN" with
  | some t => { r with exercisePlan := extract_list_items t }
  | none => r

/-- The `POSSIBLE DISEASES` section. -/
def stepDiseases (secs : List (String × String)) (r : AnalysisRecord) : AnalysisRecord :=
  match dictGet secs "POSSIBLE DISEASES" with
  | some t => { r with diseases := extract_list_items t }
  | none => r

/-- The `PREVENTIVE MEASURES` section. -/
def stepPreventive (secs : List (String × String)) (r : AnalysisRecord) : AnalysisRecord :=
  match dictGet secs "PREVENTIVE MEASURES" with
  | some t => { r with preventiveMeasures := extract_list_items t }
  | none => r

/-- The `MEDICINE RECOMMENDATIONS` section. -/
def stepMedicine (secs : List (String × String)) (r : AnalysisRecord) : AnalysisRecord :=
  match dictGet secs "MEDICINE RECOMMENDATIONS" with
  | some t => { r with medicineRecommendations := extract_list_items t }
  | none => r

/-- The `AYURVEDIC MEDICATION` section: numbered blocks appended into the
existing `recommendations` list; when none are found the whole key is
removed (`result.pop("ayurvedicMedication", None)`).  The `none` input
branch of the inner match is unreachable, as the key is present on every
path reaching this step. -/
def stepAyur (secs : List (String × String)) (r : AnalysisRecord) : AnalysisRecord :=
  match dictGet secs "AYURVEDIC MEDICATION" with
  | none => r
  | some t =>
    let recs := ayurFromText t.data
    match r.ayurvedicMedication with
    | some a =>
      let a2 := { a with recommendations := a.recommendations ++ recs }
      if a2.recommendations.isEmpty then { r with ayurvedicMedication := none }
      else { r with ayurvedicMedication := some a2 }
    | none => { r with ayurvedicMedication := none }

/-- The `DO'S` section. -/
def stepDos (secs : List (String × String)) (r : AnalysisRecord) : AnalysisRecord :=
  match dictGet secs "DO'S" with
  | some t => { r with dos := extract_list_items t }
  | none => r

/-- The `DON'TS` section. -/
def stepDonts (secs : List (String × String)) (r : AnalysisRecord) : AnalysisRecord :=
  match dictGet secs "DON'TS" with
  | some t => { r with donts := extract_list_items t }
  | none => r

/-- The `REPORTS REQUIRED` section. -/
def stepReports (secs : List (String × String)) (r : AnalysisRecord) : AnalysisRecord :=
  match dictGet secs "REPORTS REQUIRED" with
  | some t => { r with reportsRequired := reportsFromText t.data }
  | none => r

/-- The `HEALTH SCORE` section: `re.search(r'(\d+)/10', text)`. -/
def stepHealthScore (secs : List (String × String)) (r : AnalysisRecord) : AnalysisRecord :=
  match dictGet secs "HEALTH SCORE" with
  | none => r
  | some t =>
    match searchFirst (fun l =>
      let ds := l.takeWhile isDigitC
      if ds.isEmpty then none
      else if startsCS "/10".data (l.drop ds.length) then some (natOfDigits ds)
      else none) t.data with
    | some n => { r with healthScore := n }
    | none => r

/-- `ensure_comprehensive_analysis` from `backend/utils.py`: fill every
falsy field with its fixed default.  The meal dict itself always holds its
four keys on every path reaching this function, so only the per-key checks
of its `else` branch apply. -/
def ensure_comprehensive_analysis (r : AnalysisRecord) : AnalysisRecord :=
  let r := if r.recommendation = "" then
    { r with recommendation :=
        "Please consult a healthcare professional for a thorough diagnosis." } else r
  let r := if r.urgency = "" then { r with urgency := "medium" } else r
  let r := if r.followUpActions.isEmpty then
    { r with followUpActions :=
        ["Consult with a healthcare provider", "Monitor your symptoms", "Stay hydrated"] }
    else r
  let r := if r.riskFactors.isEmpty then
    { r with riskFactors := ["Consult a healthcare professional for a full assessment"] }
    else r
  let r := if r.exercisePlan.isEmpty then
    { r with exercisePlan := ["Consult your doctor before starting any exercise regimen"] }
    else r
  let r := if r.diseases.isEmpty then
    { r with diseases := ["Analysis could not identify specific diseases"] } else r
  let r := if r.preventiveMeasures.isEmpty then
    { r with preventiveMeasures :=
        ["Stay hydrated", "Get adequate rest", "Maintain a balanced diet"] } else r
  let r := if r.dos.isEmpty then
    { r with dos :=
        ["Seek professional medical advice", "Take notes of your symptoms", "Stay hydrated"] }
    else r
  let r := if r.donts.isEmpty then
    { r with donts :=
        ["Don't self-diagnose", "Don't ignore persistent symptoms",
         "Don't delay seeking medical help if symptoms worsen"] } else r
  let r := if r.mealRecommendations.breakfast.isEmpty then
    { r with mealRecommendations := { r.mealRecommendations with
        breakfast := ["Consult a nutritionist for personalized meal plans"] } } else r
  let r := if r.mealRecommendations.lunch.isEmpty then
    { r with mealRecommendations := { r.mealRecommendations with
        lunch := ["Consult a nutritionist for personalized meal plans"] } } else r
  let r := if r.mealRecommendations.dinner.isEmpty then
    { r with mealRecommendations := { r.mealRecommendations with
        dinner := ["Consult a nutritionist for personalized meal plans"] } } else r
  let r := if r.mealRecommendations.note = "" then
    { r with mealRecommendations := { r.mealRecommendations with
        note := "Consult a healthcare professional for dietary advice." } } else r
  let r := if r.reportsRequired.isEmpty then { r with reportsRequired := [] } else r
  if r.healthScore = 0 then { r with healthScore := 5 } else r

/-- The body of `parse_gemini_response` inside its `try` block: the section
split, the three condition tiers, the completeness pass (applied here, after
condition extraction only), and the per-section field extractions in source
order. -/
def parseCore (text : List Char) : AnalysisRecord :=
  let sections := sectionsOf text
  let r := initRecord
  let r := stepTier1 text r
  let r := if r.possibleConditions.isEmpty then stepTier2 sections r else r
  let r := if r.possibleConditions.isEmpty && !sections.isEmpty then
    stepTier3 sections text r else r
  let r := ensure_comprehensive_analysis r
  let r := stepRecommendation sections r
  let r := stepUrgency sections r
  let r := stepFollowUp sections r
  let r := stepRiskFactors sections r
  let r := stepMeals sections r
  let r := stepExercise sections r
  let r := stepDiseases sections r
  let r := stepPreventive sections r
  let r := stepMedicine sections r
  let r := stepAyur sections r
  let r := stepDos sections r
  let r := stepDonts sections r
  let r := stepReports sections r
  stepHealthScore sections r

/-- The `try` body as a fallible computation.  Every operation of the
translated body is total (regex evaluation and `int` on digit captures
cannot fail), so the body always succeeds; the `Except` form records the
exception boundary of the source. -/
def parseBody (text : List Char) : Except String AnalysisRecord :=
  Except.ok (parseCore text)

/-- `parse_gemini_response` from `backend/utils.py`: the falsy-input early
return, the `try` body, and the `except` handler producing the fixed error
record. -/
def parse_gemini_response (s : String) : AnalysisRecord :=
  if s = "" then emptyResponseRecord
  else
    match parseBody s.data with
    | .ok r => r
    | .error e => exceptionRecord e

/-! ### Properties of the Field Normalizer -/

/-- The two normal-form properties of `collapseWs` output, stated as a chain:
no two adjacent whitespace characters. -/
def wsChain (l : List Char) : Prop :=
  l.Chain' (fun a b => ¬(pyWs a = true ∧ pyWs b = true))

theorem collapseWs_head_not_ws {d : Char} (rest : List Char) (h : ¬pyWs d = true) :
    (collapseWs (d :: rest)).head? = some d := by
  cases rest with
  | nil => simp [collapseWs, h]
  | cons e rest => simp [collapseWs, h]

theorem collapseWs_chain (l : List Char) : wsChain (collapseWs l) := by
  induction l using collapseWs.induct with
  | case1 => simp [collapseWs, wsChain]
  | case2 c h => simp [collapseWs, h, wsChain]
  | case3 c h => simp [collapseWs, h, wsChain]
  | case4 c d rest h1 h2 ih => simpa [collapseWs, h1, h2] using ih
  | case5 c d rest h1 h2 ih =>
    rw [wsChain, collapseWs, if_pos h1, if_neg h2, List.chain'_cons']
    refine ⟨?_, ih⟩
    intro y hy
    rw [collapseWs_head_not_ws rest h2] at hy
    simp only [Option.mem_def, Option.some.injEq] at hy
    subst hy
    simp [h2]
  | case6 c d rest h1 ih =>
    rw [wsChain, collapseWs, if_neg h1, List.chain'_cons']
    exact ⟨fun y _ => by simp [h1], ih⟩

theorem collapseWs_ws_eq_space (l : List Char) :
    ∀ c ∈ collapseWs l, pyWs c = true → c = ' ' := by
  induction l using collapseWs.induct with
  | case1 => simp [collapseWs]
  | case2 c h => simp [collapseWs, h]
  | case3 c h =>
    simp only [collapseWs, if_neg h, List.mem_singleton]
    intro x hx hxw
    rw [hx] at hxw
    exact absurd hxw h
  | case4 c d rest h1 h2 ih => simpa [collapseWs, h1, h2] using ih
  | case5 c d rest h1 h2 ih =>
    rw [collapseWs, if_pos h1, if_neg h2]
    intro x hx hxw
    rcases List.mem_cons.mp hx with h | h
    · exact h
    · exact ih x h hxw
  | case6 c d rest h1 ih =>
    rw [collapseWs, if_neg h1]
    intro x hx hxw
    rcases List.mem_cons.mp hx with h | h
    · exact absurd (h ▸ hxw) h1
    · exact ih x h hxw

theorem collapseWs_eq_self (l : List Char)
    (h1 : ∀ c ∈ l, pyWs c = true → c = ' ') (h2 : wsChain l) : collapseWs l = l := by
  induction l using collapseWs.induct with
  | case1 => rfl
  | case2 c h => rw [collapseWs, if_pos h, h1 c (by simp) h]
  | case3 c h => rw [collapseWs, if_neg h]
  | case4 c d rest hc hd ih =>
    exfalso
    rw [wsChain, List.chain'_cons'] at h2
    exact (h2.1 d (by cases rest <;> simp)) ⟨hc, hd⟩
  | case5 c d rest hc hd ih =>
    rw [collapseWs, if_pos hc, if_neg hd,
      ih (fun x hx => h1 x (List.mem_cons_of_mem c hx)) h2.tail,
      h1 c (by simp) hc]
  | case6 c d rest hc ih =>
    rw [collapseWs, if_neg hc, ih (fun x hx => h1 x (List.mem_cons_of_mem c hx)) h2.tail]

theorem mem_collapseWs (l : List Char) : ∀ c ∈ collapseWs l, c ∈ l ∨ c = ' ' := by
  induction l using collapseWs.induct with
  | case1 => simp [collapseWs]
  | case2 c h => simp [collapseWs, h]
  | case3 c h => simp [collapseWs, h]
  | case4 c d rest h1 h2 ih =>
    rw [collapseWs, if_pos h1, if_pos h2]
    intro x hx
    rcases ih x hx with h | h
    · exact Or.inl (List.mem_cons_of_mem c h)
    · exact Or.inr h
  | case5 c d rest h1 h2 ih =>
    rw [collapseWs, if_pos h1, if_neg h2]
    intro x hx
    rcases List.mem_cons.mp hx with h | h
    · exact Or.inr h
    · rcases ih x h with h' | h'
      · exact Or.inl (List.mem_cons_of_mem c h')
      · exact Or.inr h'
  | case6 c d rest h1 ih =>
    rw [collapseWs, if_neg h1]
    intro x hx
    rcases List.mem_cons.mp hx with h | h
    · exact Or.inl (h ▸ List.mem_cons_self x _)
    · rcases ih x h with h' | h'
      · exact Or.inl (List.mem_cons_of_mem c h')
      · exact Or.inr h'

theorem pyStrip_eq (l : List Char) :
    pyStrip l = List.rdropWhile pyWs (l.dropWhile pyWs) := rfl

theorem prefix_get_zero {l1 l2 : List Char} (h : l1 <+: l2) (h1 : 0 < l1.length)
    (h2 : 0 < l2.length) : l1.get ⟨0, h1⟩ = l2.get ⟨0, h2⟩ := by
  obtain ⟨t, rfl⟩ := h
  cases l1 with
  | nil => simp at h1
  | cons a l => rfl

theorem pyStrip_idem (l : List Char) : pyStrip (pyStrip l) = pyStrip l := by
  rw [pyStrip_eq, pyStrip_eq]
  have hpre := List.rdropWhile_prefix pyWs (l.dropWhile pyWs)
  have hdw : (List.rdropWhile pyWs (l.dropWhile pyWs)).dropWhile pyWs
      = List.rdropWhile pyWs (l.dropWhile pyWs) := by
    rw [List.dropWhile_eq_self_iff]
    intro hl
    have h0 : (l.dropWhile pyWs).dropWhile pyWs = l.dropWhile pyWs :=
      List.dropWhile_idempotent _ _
    rw [List.dropWhile_eq_self_iff] at h0
    have hlen : 0 < (l.dropWhile pyWs).length :=
      lt_of_lt_of_le hl (List.IsPrefix.length_le hpre)
    rw [prefix_get_zero hpre hl hlen]
    exact h0 hlen
  rw [hdw, List.rdropWhile_idempotent]



theorem dropWhile_isSuffix (p : Char → Bool) (l : List Char) : l.dropWhile p <:+ l :=
  ⟨l.takeWhile p, List.takeWhile_append_dropWhile p l⟩

theorem pyStrip_subset (l : List Char) : ∀ c ∈ pyStrip l, c ∈ l := by
  intro c hc
  rw [pyStrip_eq] at hc
  exact (dropWhile_isSuffix pyWs l).subset
    ((List.rdropWhile_prefix pyWs (l.dropWhile pyWs)).subset hc)

theorem pyStrip_chain {l : List Char} (h : wsChain l) : wsChain (pyStrip l) := by
  rw [pyStrip_eq]
  exact List.Chain'.prefix (h.suffix (dropWhile_isSuffix pyWs l))
    (List.rdropWhile_prefix pyWs (l.dropWhile pyWs))

theorem cleanTextL_no_ast (l : List Char) : ∀ c ∈ cleanTextL l, c ≠ '*' := by
  intro c hc
  have h1 : c ∈ collapseWs (l.filter (· ≠ '*')) := pyStrip_subset _ c hc
  rcases mem_collapseWs _ c h1 with h | h
  · have := List.of_mem_filter h
    simpa using this
  · rw [h]; decide

theorem cleanTextL_idem (l : List Char) : cleanTextL (cleanTextL l) = cleanTextL l := by
  have hfix : (cleanTextL l).filter (· ≠ '*') = cleanTextL l := by
    rw [List.filter_eq_self]
    intro a ha
    simpa using cleanTextL_no_ast l a ha
  have hco : collapseWs (cleanTextL l) = cleanTextL l := by
    apply collapseWs_eq_self
    · intro c hc hw
      exact collapseWs_ws_eq_space _ c (pyStrip_subset _ c hc) hw
    · exact pyStrip_chain (collapseWs_chain _)
  show pyStrip (collapseWs ((cleanTextL l).filter (· ≠ '*'))) = cleanTextL l
  rw [hfix, hco]
  exact pyStrip_idem _

theorem clean_text_idem (s : String) : clean_text (clean_text s) = clean_text s := by
  show (⟨cleanTextL (⟨cleanTextL s.data⟩ : String).data⟩ : String) = ⟨cleanTextL s.data⟩
  rw [show (⟨cleanTextL s.data⟩ : String).data = cleanTextL s.data from rfl,
    cleanTextL_idem]


/-! ### Preservation lemmas for the pipeline steps -/

/-- Shorthand for the three extraction-invariant fields of a record. -/
def PreservesCore (r' r : AnalysisRecord) : Prop :=
  r'.possibleConditions = r.possibleConditions ∧
  r'.conditionSpecificData = r.conditionSpecificData ∧
  r'.ayurvedicMedication = r.ayurvedicMedication

theorem stepRecommendation_core (secs r) : PreservesCore (stepRecommendation secs r) r := by
  unfold stepRecommendation PreservesCore
  refine ⟨?_, ?_, ?_⟩ <;> (repeat' first | split | dsimp only)

theorem stepUrgency_core (secs r) : PreservesCore (stepUrgency secs r) r := by
  unfold stepUrgency PreservesCore
  refine ⟨?_, ?_, ?_⟩ <;> (repeat' first | split | dsimp only)

theorem stepFollowUp_core (secs r) : PreservesCore (stepFollowUp secs r) r := by
  unfold stepFollowUp PreservesCore
  refine ⟨?_, ?_, ?_⟩ <;> (repeat' first | split | dsimp only)

theorem stepRiskFactors_core (secs r) : PreservesCore (stepRiskFactors secs r) r := by
  unfold stepRiskFactors PreservesCore
  refine ⟨?_, ?_, ?_⟩ <;> (repeat' first | split | dsimp only)

theorem stepMeals_core (secs r) : PreservesCore (stepMeals secs r) r := by
  unfold stepMeals PreservesCore
  refine ⟨?_, ?_, ?_⟩ <;> (repeat' first | split | dsimp only)

theorem stepExercise_core (secs r) : PreservesCore (stepExercise secs r) r := by
  unfold stepExercise PreservesCore
  refine ⟨?_, ?_, ?_⟩ <;> (repeat' first | split | dsimp only)

theorem stepDiseases_core (secs r) : PreservesCore (stepDiseases secs r) r := by
  unfold stepDiseases PreservesCore
  refine ⟨?_, ?_, ?_⟩ <;> (repeat' first | split | dsimp only)

theorem stepPreventive_core (secs r) : PreservesCore (stepPreventive secs r) r := by
  unfold stepPreventive PreservesCore
  refine ⟨?_, ?_, ?_⟩ <;> (repeat' first | split | dsimp only)

theorem stepMedicine_core (secs r) : PreservesCore (stepMedicine secs r) r := by
  unfold stepMedicine PreservesCore
  refine ⟨?_, ?_, ?_⟩ <;> (repeat' first | split | dsimp only)

theorem stepDos_core (secs r) : PreservesCore (stepDos secs r) r := by
  unfold stepDos PreservesCore
  refine ⟨?_, ?_, ?_⟩ <;> (repeat' first | split | dsimp only)

theorem stepDonts_core (secs r) : PreservesCore (stepDonts secs r) r := by
  unfold stepDonts PreservesCore
  refine ⟨?_, ?_, ?_⟩ <;> (repeat' first | split | dsimp only)

theorem stepReports_core (secs r) : PreservesCore (stepReports secs r) r := by
  unfold stepReports PreservesCore
  refine ⟨?_, ?_, ?_⟩ <;> (repeat' first | split | dsimp only)

theorem stepHealthScore_core (secs r) : PreservesCore (stepHealthScore secs r) r := by
  unfold stepHealthScore PreservesCore
  refine ⟨?_, ?_, ?_⟩ <;> (repeat' first | split | dsimp only)

theorem stepAyur_pc_csd (secs r) :
    (stepAyur secs r).possibleConditions = r.possibleConditions ∧
    (stepAyur secs r).conditionSpecificData = r.conditionSpecificData := by
  unfold stepAyur
  refine ⟨?_, ?_⟩ <;> (repeat' first | split | dsimp only)

theorem ensure_core (r) : PreservesCore (ensure_comprehensive_analysis r) r := by
  refine ⟨?_, ?_, ?_⟩ <;>
    simp [ensure_comprehensive_analysis, apply_ite AnalysisRecord.possibleConditions,
      apply_ite AnalysisRecord.conditionSpecificData,
      apply_ite AnalysisRecord.ayurvedicMedication]

theorem tier1Block_ay (text r block) :
    (tier1Block text r block).ayurvedicMedication = r.ayurvedicMedication := by
  unfold tier1Block
  repeat' first | split | dsimp only

theorem stepTier1_ay (text r) :
    (stepTier1 text r).ayurvedicMedication = r.ayurvedicMedication := by
  unfold stepTier1
  split
  · rfl
  · rename_i condText _
    generalize dropEmptyHead (splitNum condText) = bs
    induction bs generalizing r with
    | nil => rfl
    | cons b bs ih => rw [List.foldl_cons, ih, tier1Block_ay]

theorem stepTier2_ay (secs r) :
    (stepTier2 secs r).ayurvedicMedication = r.ayurvedicMedication := by
  unfold stepTier2
  split
  · rfl
  · rename_i condText _
    generalize tier2FindAll condText.data = ms
    induction ms generalizing r with
    | nil => rfl
    | cons m ms ih =>
      rw [List.foldl_cons, ih]

theorem stepTier3_ay (secs text r) :
    (stepTier3 secs text r).ayurvedicMedication = r.ayurvedicMedication := by
  unfold stepTier3
  induction secs generalizing r with
  | nil => rfl
  | cons kv secs ih =>
    rw [List.foldl_cons, ih]
    repeat' first | split | dsimp only


/-! ### Claim theorems: totality, idempotence, guarantor completeness -/

/-- C1: for every input string, `parse_gemini_response` returns a record and
never raises: the empty input yields the fixed empty-input record, and the
`try` body either succeeds (and its record is returned unchanged) or its
exception is converted into the fixed error record whose single condition
names the failure and whose description carries the error text — never
propagated. -/
theorem C1_parser_never_raises (s : String) :
    (s = "" ∧ parse_gemini_response s = emptyResponseRecord) ∨
    (s ≠ "" ∧ ((∃ r, parseBody s.data = .ok r ∧ parse_gemini_response s = r) ∨
      (∃ e, parseBody s.data = .error e ∧ parse_gemini_response s = exceptionRecord e ∧
        (exceptionRecord e).possibleConditions =
          [{ name := "Error Analyzing Symptoms", probability := 100,
             description := "There was an error analyzing your symptoms: " ++ e,
             category := "error" }]))) := by
  by_cases h : s = ""
  · exact Or.inl ⟨h, by rw [parse_gemini_response, if_pos h]⟩
  · refine Or.inr ⟨h, Or.inl ⟨parseCore s.data, rfl, ?_⟩⟩
    rw [parse_gemini_response, if_neg h]
    rfl

/-- C9: the Field Normalizer `clean_text` is idempotent. -/
theorem C9_clean_text_idempotent (s : String) :
    clean_text (clean_text s) = clean_text s :=
  clean_text_idem s

/-- C2 counterexample: the claim requires every required meal sub-field to be
non-empty for every input including the empty string, but the empty-string
input returns the fixed empty-input record without ever invoking
`ensure_comprehensive_analysis`, and its meal lists and note are empty. -/
theorem C2_counterexample :
    (parse_gemini_response "").mealRecommendations.breakfast = [] ∧
    (parse_gemini_response "").mealRecommendations.note = "" :=
  ⟨rfl, rfl⟩

/-- C2 amended: immediately after `ensure_comprehensive_analysis` runs, every
defaulted top-level field and every meal sub-field is non-empty; the source
however applies it after condition extraction only (not as the final step),
and the empty-string input bypasses it entirely. -/
theorem C2_amended_guarantor_output_complete (r : AnalysisRecord) :
    (ensure_comprehensive_analysis r).recommendation ≠ "" ∧
    (ensure_comprehensive_analysis r).urgency ≠ "" ∧
    (ensure_comprehensive_analysis r).followUpActions ≠ [] ∧
    (ensure_comprehensive_analysis r).riskFactors ≠ [] ∧
    (ensure_comprehensive_analysis r).exercisePlan ≠ [] ∧
    (ensure_comprehensive_analysis r).diseases ≠ [] ∧
    (ensure_comprehensive_analysis r).preventiveMeasures ≠ [] ∧
    (ensure_comprehensive_analysis r).dos ≠ [] ∧
    (ensure_comprehensive_analysis r).donts ≠ [] ∧
    (ensure_comprehensive_analysis r).mealRecommendations.breakfast ≠ [] ∧
    (ensure_comprehensive_analysis r).mealRecommendations.lunch ≠ [] ∧
    (ensure_comprehensive_analysis r).mealRecommendations.dinner ≠ [] ∧
    (ensure_comprehensive_analysis r).mealRecommendations.note ≠ "" ∧
    (ensure_comprehensive_analysis r).healthScore ≠ 0 := by
  refine ⟨?_, ?_, ?_, ?_, ?_, ?_, ?_, ?_, ?_, ?_, ?_, ?_, ?_, ?_⟩
  · simp only [ensure_comprehensive_analysis, apply_ite AnalysisRecord.recommendation, ite_self]
    split
    · decide
    · assumption
  · simp only [ensure_comprehensive_analysis, apply_ite AnalysisRecord.urgency, ite_self]
    split
    · decide
    · assumption
  · simp only [ensure_comprehensive_analysis, apply_ite AnalysisRecord.followUpActions, ite_self]
    split
    · simp
    · rename_i hne
      simpa [List.isEmpty_iff] using hne
  · simp only [ensure_comprehensive_analysis, apply_ite AnalysisRecord.riskFactors, ite_self]
    split
    · simp
    · rename_i hne
      simpa [List.isEmpty_iff] using hne
  · simp only [ensure_comprehensive_analysis, apply_ite AnalysisRecord.exercisePlan, ite_self]
    split
    · simp
    · rename_i hne
      simpa [List.isEmpty_iff] using hne
  · simp only [ensure_comprehensive_analysis, apply_ite AnalysisRecord.diseases, ite_self]
    split
    · simp
    · rename_i hne
      simpa [List.isEmpty_iff] using hne
  · simp only [ensure_comprehensive_analysis, apply_ite AnalysisRecord.preventiveMeasures, ite_self]
    split
    · simp
    · rename_i hne
      simpa [List.isEmpty_iff] using hne
  · simp only [ensure_comprehensive_analysis, apply_ite AnalysisRecord.dos, ite_self]
    split
    · simp
    · rename_i hne
      simpa [List.isEmpty_iff] using hne
  · simp only [ensure_comprehensive_analysis, apply_ite AnalysisRecord.donts, ite_self]
    split
    · simp
    · rename_i hne
      simpa [List.isEmpty_iff] using hne
  · simp only [ensure_comprehensive_analysis, apply_ite AnalysisRecord.mealRecommendations,
      apply_ite MealRecommendations.breakfast, ite_self]
    split
    · simp
    · rename_i hne
      simpa [List.isEmpty_iff] using hne
  · simp only [ensure_comprehensive_analysis, apply_ite AnalysisRecord.mealRecommendations,
      apply_ite MealRecommendations.lunch, ite_self]
    split
    · simp
    · rename_i hne
      simpa [List.isEmpty_iff] using hne
  · simp only [ensure_comprehensive_analysis, apply_ite AnalysisRecord.mealRecommendations,
      apply_ite MealRecommendations.dinner, ite_self]
    split
    · simp
    · rename_i hne
      simpa [List.isEmpty_iff] using hne
  · simp only [ensure_comprehensive_analysis, apply_ite AnalysisRecord.mealRecommendations,
      apply_ite MealRecommendations.note, ite_self]
    split
    · decide
    · assumption
  · simp only [ensure_comprehensive_analysis, apply_ite AnalysisRecord.healthScore, ite_self]
    split
    · decide
    · assumption


/-! ### Claim theorems: field presence -/

set_option maxRecDepth 10000

theorem stepAyur_ayur_none {secs : List (String × String)} {r : AnalysisRecord}
    {a : AyurMed} (ha : r.ayurvedicMedication = some a)
    (hd : dictGet secs "AYURVEDIC MEDICATION" = none) :
    (stepAyur secs r).ayurvedicMedication = some a := by
  unfold stepAyur
  rw [hd]
  exact ha

theorem stepAyur_ayur_some {secs : List (String × String)} {r : AnalysisRecord}
    {a : AyurMed} {t : String} (ha : r.ayurvedicMedication = some a)
    (hrec : a.recommendations = []) (hd : dictGet secs "AYURVEDIC MEDICATION" = some t) :
    (stepAyur secs r).ayurvedicMedication =
      (if (ayurFromText t.data).isEmpty then none
       else some { a with recommendations := ayurFromText t.data }) := by
  unfold stepAyur
  rw [hd]
  split
  case _ heq => exact absurd heq (by simp)
  case _ t' heq =>
    injection heq with ht
    subst ht
    rw [ha]
    split
    case _ a' heq2 =>
      injection heq2 with haa
      subst haa
      dsimp only
      rw [hrec, List.nil_append]
      split <;> rfl
    case _ heq2 => exact absurd heq2 (by simp)

/-- C3 counterexample: the claim requires every listed field, including
`ayurvedicMedication`, to be present in the returned record for every input;
but when the `AYURVEDIC MEDICATION` section is present and yields no
structured recommendation, the source pops the key
(`result.pop("ayurvedicMedication", None)`), and the field is absent. -/
theorem C3_counterexample :
    (parse_gemini_response "AYURVEDIC MEDICATION:\nTulsi\n").ayurvedicMedication = none :=
  rfl

/-- C3 amended:every field other than `ayurvedicMedication` is always
present with its container type; `ayurvedicMedication` is present iff the
section map has no `AYURVEDIC MEDICATION` key, or the section's body yields
at least one structured recommendation (only a present section with zero
structured recommendations triggers the `pop`, and the key is then absent). -/
theorem C3_amended_ayur_presence_iff (s : String) :
    (parse_gemini_response s).ayurvedicMedication.isSome ↔
      (dictGet (sectionsOf s.data) "AYURVEDIC MEDICATION" = none ∨
       ∃ t, dictGet (sectionsOf s.data) "AYURVEDIC MEDICATION" = some t ∧
         ayurFromText t.data ≠ []) := by
  by_cases hs : s = ""
  · subst hs
    exact ⟨fun _ => Or.inl rfl, fun _ => rfl⟩
  · rw [parse_gemini_response, if_neg hs]
    show (parseCore s.data).ayurvedicMedication.isSome ↔ _
    unfold parseCore
    dsimp only
    rw [(stepHealthScore_core _ _).2.2, (stepReports_core _ _).2.2,
      (stepDonts_core _ _).2.2, (stepDos_core _ _).2.2]
    cases hd : dictGet (sectionsOf s.data) "AYURVEDIC MEDICATION" with
    | none =>
      rw [stepAyur_ayur_none (a := ⟨[], none, none, none⟩) ?hn hd]
      case hn =>
        rw [(stepMedicine_core _ _).2.2, (stepPreventive_core _ _).2.2,
          (stepDiseases_core _ _).2.2, (stepExercise_core _ _).2.2,
          (stepMeals_core _ _).2.2, (stepRiskFactors_core _ _).2.2,
          (stepFollowUp_core _ _).2.2, (stepUrgency_core _ _).2.2,
          (stepRecommendation_core _ _).2.2, (ensure_core _).2.2,
          apply_ite AnalysisRecord.ayurvedicMedication, stepTier3_ay, ite_self,
          apply_ite AnalysisRecord.ayurvedicMedication, stepTier2_ay, ite_self,
          stepTier1_ay]
        rfl
      simp
    | some t =>
      rw [stepAyur_ayur_some (a := ⟨[], none, none, none⟩) ?hsm rfl hd]
      case hsm =>
        rw [(stepMedicine_core _ _).2.2, (stepPreventive_core _ _).2.2,
          (stepDiseases_core _ _).2.2, (stepExercise_core _ _).2.2,
          (stepMeals_core _ _).2.2, (stepRiskFactors_core _ _).2.2,
          (stepFollowUp_core _ _).2.2, (stepUrgency_core _ _).2.2,
          (stepRecommendation_core _ _).2.2, (ensure_core _).2.2,
          apply_ite AnalysisRecord.ayurvedicMedication, stepTier3_ay, ite_self,
          apply_ite AnalysisRecord.ayurvedicMedication, stepTier2_ay, ite_self,
          stepTier1_ay]
        rfl
      by_cases he : (ayurFromText t.data).isEmpty
      · rw [if_pos he]
        rw [List.isEmpty_iff] at he
        simp [he]
      · rw [if_neg he]
        rw [List.isEmpty_iff] at he
        exact ⟨fun _ => Or.inr ⟨t, rfl, he⟩, fun _ => rfl⟩


/-! ### Claim theorems: normalization of extracted items -/


theorem extract_list_items_mem {s x : String} (hx : x ∈ extract_list_items s) :
    ∃ raw : List Char, (pyStrip raw).isEmpty = false ∧ x = ⟨cleanTextL raw⟩ := by
  unfold extract_list_items extractListItemsL at hx
  split at hx
  · simp at hx
  · rw [List.mem_map] at hx
    obtain ⟨l, hl, rfl⟩ := hx
    rw [List.mem_map] at hl
    obtain ⟨raw, hraw, rfl⟩ := hl
    refine ⟨raw, ?_, rfl⟩
    have := (List.mem_filter.mp hraw).2
    simpa using this

/-- C7 counterexample: the claim says every returned item is non-empty after
normalization (empty items are filtered, not retained); but the emptiness
filter runs on the raw item before normalization, so `"1. **"` yields the
item `"**"`, which survives the filter and normalizes to the empty string,
which is retained. -/
theorem C7_counterexample : extract_list_items "1. **" = [""] := rfl

/-- C7 amended: `extract_list_items` never raises (it is a total function of
the embedding), returns the empty sequence when the input strips to nothing,
and every returned item is the normalization of an extracted raw item that
was non-whitespace before normalization — items may still normalize to the
empty string and are then retained. -/
theorem C7_amended_items_from_raw (s : String) :
    ((pyStrip s.data).isEmpty = true → extract_list_items s = []) ∧
    ∀ x ∈ extract_list_items s,
      ∃ raw : List Char, (pyStrip raw).isEmpty = false ∧ x = ⟨cleanTextL raw⟩ := by
  constructor
  · intro h
    unfold extract_list_items extractListItemsL
    rw [if_pos h]
    rfl
  · exact fun x hx => extract_list_items_mem hx

/-- C7 amended witness. -/
theorem C7_amended_items_from_raw_witness :
    ∃ raw : List Char, (pyStrip raw).isEmpty = false ∧ "" = (⟨cleanTextL raw⟩ : String) :=
  (C7_amended_items_from_raw "1. **").2 "" (by decide)

/-- C6 counterexample: the claim says every leaf string of the returned
record has passed the Field Normalizer (no asterisks); but a condition
description is stored with `.strip()` only, so asterisks survive into the
final record. -/
theorem C6_counterexample :
    (parse_gemini_response
        "POSSIBLE CONDITIONS:\n1. Flu (Probability: 80%): a *viral* infection\nRECOMMENDATION:\nRest.").possibleConditions.map
        Condition.description = ["a *viral* infection"] ∧
    '*' ∈ "a *viral* infection".data :=
  ⟨rfl, by decide⟩

/-- C6 amended: strings produced by `extract_list_items` (and hence the
general list fields and the cleaned recommendation) are normalized — fixed
points of `clean_text`, free of asterisks; but condition names and
descriptions and the five diagnostic-report detail fields are stored without
normalization and may retain asterisks and embedded newlines. -/
theorem C6_amended_list_items_normalized (s : String) :
    ∀ x ∈ extract_list_items s, clean_text x = x ∧ '*' ∉ x.data := by
  intro x hx
  obtain ⟨raw, _, rfl⟩ := extract_list_items_mem hx
  refine ⟨?_, ?_⟩
  · show (⟨cleanTextL (cleanTextL raw)⟩ : String) = ⟨cleanTextL raw⟩
    rw [cleanTextL_idem]
  · intro hmem
    exact cleanTextL_no_ast raw '*' hmem rfl

/-- C6 amended witness. -/
theorem C6_amended_list_items_normalized_witness :
    clean_text "a" = "a" ∧ '*' ∉ "a".data :=
  C6_amended_list_items_normalized "1. a" "a" (by decide)


/-! ### Claim theorems: report thresholds -/

theorem dropWhile_len_le (p : Char → Bool) (l : List Char) :
    (l.dropWhile p).length ≤ l.length := by
  induction l with
  | nil => simp
  | cons a t ih =>
    rw [List.dropWhile_cons]
    split
    · exact Nat.le_trans ih (Nat.le_succ _)
    · simp

theorem head_dropWhile_not {p : Char → Bool} {l : List Char} {c : Char} {cs : List Char}
    (h : l.dropWhile p = c :: cs) : p c = false := by
  have h0 : (l.dropWhile p).dropWhile p = l.dropWhile p := List.dropWhile_idempotent _ _
  rw [h] at h0
  by_cases hc : p c
  · rw [List.dropWhile_cons, if_pos hc] at h0
    have hlen := congrArg List.length h0
    have := dropWhile_len_le p cs
    simp at hlen
    omega
  · simpa using hc

theorem dropWhile_pyWs_ne_nil {l : List Char} (h : (pyStrip l).isEmpty = false) :
    l.dropWhile pyWs ≠ [] := by
  intro he
  rw [pyStrip_eq, he, List.rdropWhile_nil] at h
  simp at h

theorem drop_takeWhile_length (p : Char → Bool) (l : List Char) :
    l.drop (l.takeWhile p).length = l.dropWhile p := by
  induction l with
  | nil => rfl
  | cons a t ih =>
    rw [List.takeWhile_cons, List.dropWhile_cons]
    split
    · simpa using ih
    · simp

theorem wsStarThenRun_of_strip {l : List Char} {keep : Char → Bool}
    (hk : ∀ c, pyWs c = false → keep c = true)
    (h : (pyStrip l).isEmpty = false) :
    wsStarThenRun keep l = some ((l.dropWhile pyWs).takeWhile keep,
      (l.dropWhile pyWs).drop ((l.dropWhile pyWs).takeWhile keep).length) := by
  have hne : l.dropWhile pyWs ≠ [] := dropWhile_pyWs_ne_nil h
  obtain ⟨c, cs, hcc⟩ : ∃ c cs, l.dropWhile pyWs = c :: cs := by
    cases hx : l.dropWhile pyWs with
    | nil => exact absurd hx hne
    | cons a t => exact ⟨a, t, rfl⟩
  have hc : keep c = true := hk c (head_dropWhile_not hcc)
  unfold wsStarThenRun
  dsimp only
  rw [drop_takeWhile_length, hcc]
  dsimp only
  rw [if_pos hc, ← hcc]

/-- C5 counterexample: the claim says a numbered report block with only two
of the five labeled fields non-empty is excluded from `reportsRequired`; but
when no block passes the first pass, the alternative pass re-adds blocks
with as little as one non-empty field, so this two-field block is included. -/
theorem C5_counterexample :
    (parse_gemini_response
        "REPORTS REQUIRED:\n1. CBC\n- Purpose: check blood\n- Benefits: useful info").reportsRequired.length = 1 ∧
    reportFieldCount "1. CBC\n- Purpose: check blood\n- Benefits: useful info".data = 2 :=
  ⟨rfl, rfl⟩

/-- C5 amended: the first extraction pass includes a (non-blank) block
exactly when it carries a canonical field marker and at least three of its
five labeled fields are non-empty; a block with two or fewer fields is
excluded from the first pass, but when that pass yields nothing and the
section text is non-empty, the fallback pass includes blocks having at
least one non-empty labeled field. -/
theorem C5_amended_first_pass_threshold (block : List Char)
    (h : (pyStrip block).isEmpty = false) :
    (firstPassReport block).isSome = true ↔
      (hasReportMarkers block = true ∧ 3 ≤ reportFieldCount block) := by
  unfold firstPassReport
  rw [if_neg (by simp [h])]
  rw [wsStarThenRun_of_strip (fun c hc => by
        simp only [ne_eq, decide_eq_true_eq]
        intro he
        subst he
        simp [pyWs] at hc) h]
  dsimp only
  cases hm : hasReportMarkers block with
  | false => simp
  | true =>
    simp only [Bool.not_true, Bool.false_eq_true, if_false, true_and]
    by_cases h3 : reportFieldCount block < 3
    · rw [if_pos h3]
      simp
      omega
    · rw [if_neg h3]
      rw [if_pos (by split <;> omega)]
      simp
      omega

/-- C5 amended witness: a block with three non-empty labeled fields is
accepted by the first pass. -/
theorem C5_amended_first_pass_threshold_witness :
    (firstPassReport
      "1. MRI\n- Purpose: brain\n- Benefits: detail\n- Analysis Details: scans".data).isSome
      = true :=
  (C5_amended_first_pass_threshold _ (by decide)).mpr (by decide)



theorem scanStop0_no_stop {stop : List Char → Bool} {l : List Char}
    (hnil : stop [] = true) (h : ∀ s ∈ l.tails, s ≠ [] → stop s = false) :
    scanStop0 stop l = some (l, []) := by
  induction l with
  | nil => simp [scanStop0, hnil]
  | cons c cs ih =>
    rw [scanStop0, if_neg (by simp [h (c :: cs) (by simp) (by simp)]),
      ih (fun s hs hne => h s (by
        rw [List.mem_tails] at hs ⊢
        exact hs.trans (List.suffix_cons c cs)) hne)]
    rfl

theorem sectionsGo_nil (fuel : Nat) : sectionsGo fuel [] = [] := by
  cases fuel <;> rfl

theorem sectionsGo_succ_none {fuel : Nat} {c : Char} {cs : List Char}
    (h : matchSectionAt (c :: cs) = none) :
    sectionsGo (fuel + 1) (c :: cs) = sectionsGo fuel cs := by
  rw [sectionsGo, h]

theorem sectionsGo_succ_some {fuel : Nat} {c : Char} {cs : List Char} {kv after}
    (h : matchSectionAt (c :: cs) = some (kv, after)) :
    sectionsGo (fuel + 1) (c :: cs) = kv :: sectionsGo fuel after := by
  rw [sectionsGo, h]

/-- C8 counterexample: the heading pattern is unanchored, so the all-caps
span ` FEVER` beginning mid-line (after `x`) is turned into the key
`FEVER` — the claim that a span not at a line start never becomes a key is
false. -/
theorem C8_counterexample :
    sectionsOf "x FEVER:\nstuff".data = [("FEVER", "stuff")] ∧
    dictGet (sectionsOf "x FEVER:\nstuff".data) "FEVER" = some "stuff" :=
  ⟨rfl, rfl⟩

/-- C8 amended: the Section Splitter recognizes a heading wherever a run of
capitals, whitespace and apostrophes is followed by a colon and a newline —
including spans that do not begin at a line start; the section body runs
from after the heading's newlines to the next recognized heading lookahead
or the end of text.  Stated for the mid-line heading of `x FEVER:` followed
by an arbitrary stop-free body. -/
theorem C8_amended_midline_heading (b : List Char) (hb : b ≠ [])
    (hh : b.head? ≠ some '\r' ∧ b.head? ≠ some '\n')
    (hstop : ∀ s ∈ b.tails, s ≠ b → s ≠ [] → sectionStop s = false) :
    sectionsOf ('x' :: ' ' :: 'F' :: 'E' :: 'V' :: 'E' :: 'R' :: ':' :: '\n' :: b)
      = [("FEVER", ⟨pyStrip b⟩)] := by
  obtain ⟨c, t, rfl⟩ : ∃ c t, b = c :: t := by
    cases b with
    | nil => exact absurd rfl hb
    | cons c t => exact ⟨c, t, rfl⟩
  have hcr : c ≠ '\r' := fun he => by simp [he] at hh
  have hcn : c ≠ '\n' := fun he => by simp [he] at hh
  have hm1 : matchSectionAt
      ('x' :: ' ' :: 'F' :: 'E' :: 'V' :: 'E' :: 'R' :: ':' :: '\n' :: c :: t) = none := by
    unfold matchSectionAt
    rw [List.takeWhile_cons_of_neg (by decide)]
    rfl
  have htw2 : List.takeWhile clsChar
      (' ' :: 'F' :: 'E' :: 'V' :: 'E' :: 'R' :: ':' :: '\n' :: c :: t)
      = [' ', 'F', 'E', 'V', 'E', 'R'] := by
    rw [List.takeWhile_cons_of_pos (by decide), List.takeWhile_cons_of_pos (by decide),
      List.takeWhile_cons_of_pos (by decide), List.takeWhile_cons_of_pos (by decide),
      List.takeWhile_cons_of_pos (by decide), List.takeWhile_cons_of_pos (by decide),
      List.takeWhile_cons_of_neg (by decide)]
  have hnls : List.takeWhile (fun ch => ch = '\r' || ch = '\n') ('\n' :: c :: t)
      = ['\n'] := by
    rw [List.takeWhile_cons_of_pos (by decide),
      List.takeWhile_cons_of_neg (by simp [hcr, hcn])]
  have hscan : scanStop1 sectionStop (c :: t) = some (c :: t, []) := by
    rw [scanStop1, scanStop0_no_stop (by decide)
      (fun s hs hne => hstop s (by
        rw [List.mem_tails] at hs ⊢
        exact hs.trans (List.suffix_cons c t)) (by
        intro he
        have hsuf : s <:+ t := (List.mem_tails _ _).mp hs
        have hlen := hsuf.length_le
        rw [he] at hlen
        simp at hlen) hne)]
    rfl
  have hm2 : matchSectionAt (' ' :: 'F' :: 'E' :: 'V' :: 'E' :: 'R' :: ':' :: '\n' :: c :: t)
      = some (("FEVER", ⟨pyStrip (c :: t)⟩), []) := by
    unfold matchSectionAt
    rw [htw2]
    unfold_let
    rw [show ([' ', 'F', 'E', 'V', 'E', 'R'] : List Char).length = 6 from rfl]
    rw [show List.drop 6 (' ' :: 'F' :: 'E' :: 'V' :: 'E' :: 'R' :: ':' :: '\n' :: c :: t)
        = ':' :: '\n' :: c :: t from rfl]
    rw [if_neg (show ¬(([' ', 'F', 'E', 'V', 'E', 'R'] : List Char).isEmpty = true) by decide)]
    split
    all_goals rename_i a1 a2
    case _ =>
      injection a2 with _ hr2
      subst hr2
      rw [hnls]
      unfold_let
      rw [if_neg (show ¬((['\n'] : List Char).isEmpty = true) by decide)]
      rw [show (['\n'] : List Char).length = 1 from rfl]
      rw [show List.drop 1 ('\n' :: c :: t) = c :: t from rfl]
      rw [hscan]
      rfl
    case _ =>
      exact (a2 ('\n' :: c :: t) rfl).elim
  unfold sectionsOf
  rw [sectionsGo_succ_none hm1]
  rw [show ('x' :: ' ' :: 'F' :: 'E' :: 'V' :: 'E' :: 'R' :: ':' :: '\n' :: c :: t).length
      = (' ' :: 'F' :: 'E' :: 'V' :: 'E' :: 'R' :: ':' :: '\n' :: c :: t).length + 1 from rfl]
  rw [sectionsGo_succ_some hm2]
  rw [sectionsGo_nil]
  rfl

/-- C8 amended witness. -/
theorem C8_amended_midline_heading_witness :
    sectionsOf ('x' :: ' ' :: 'F' :: 'E' :: 'V' :: 'E' :: 'R' :: ':' :: '\n' :: "stuff".data)
      = [("FEVER", "stuff")] :=
  (C8_amended_midline_heading "stuff".data (by decide) (by decide) (by decide)).trans
    (by decide)


theorem condInfoGo_mem (acc l : List Char) (x : List Char × Nat × List Char)
    (h : condInfoGo acc l = some x) : '(' ∈ l := by
  induction l generalizing acc with
  | nil => exact absurd h (by simp [condInfoGo])
  | cons c cs ih =>
    rw [condInfoGo] at h
    by_cases hc : c = '('
    · exact hc ▸ List.mem_cons_self _ _
    · rw [if_neg hc] at h
      exact List.mem_cons_of_mem _ (ih _ h)

theorem matchCondInfo_strip_ne {block : List Char} {x : List Char × Nat × List Char}
    (h : matchCondInfo block = some x) : (pyStrip block).isEmpty = false := by
  have hm : '(' ∈ block := condInfoGo_mem [] block x h
  cases he : (pyStrip block).isEmpty with
  | false => rfl
  | true =>
    exfalso
    rw [List.isEmpty_iff, pyStrip_eq, List.rdropWhile_eq_nil_iff] at he
    have hsplit : '(' ∈ List.takeWhile pyWs block ++ List.dropWhile pyWs block := by
      rw [List.takeWhile_append_dropWhile]; exact hm
    rcases List.mem_append.mp hsplit with h1 | h2
    · exact absurd (List.mem_takeWhile_imp h1) (by decide)
    · exact absurd (he _ h2) (by decide)

theorem tier1Block_pc {text : List Char} {r : AnalysisRecord} {block n d : List Char}
    {p : Nat} (h : matchCondInfo block = some (n, p, d)) :
    (tier1Block text r block).possibleConditions =
      r.possibleConditions ++
        [{ name := ⟨stripNumbering (pyStrip n)⟩, probability := p,
           description := ⟨pyStrip d⟩, category := "general" }] := by
  unfold tier1Block
  rw [if_neg (by rw [matchCondInfo_strip_ne h]; exact Bool.false_ne_true), h]
  repeat' first | split | dsimp only
  all_goals simp_all



theorem stepTier1_pc_five {s : List Char} {ct b1 b2 b3 b4 b5 n1 n2 n3 n4 n5 d1 d2 d3 d4 d5 : List Char}
    {p1 p2 p3 p4 p5 : Nat}
    (hct : possibleConditionsText s = some ct)
    (hbs : dropEmptyHead (splitNum ct) = [b1, b2, b3, b4, b5])
    (h1 : matchCondInfo b1 = some (n1, p1, d1))
    (h2 : matchCondInfo b2 = some (n2, p2, d2))
    (h3 : matchCondInfo b3 = some (n3, p3, d3))
    (h4 : matchCondInfo b4 = some (n4, p4, d4))
    (h5 : matchCondInfo b5 = some (n5, p5, d5)) :
    (stepTier1 s initRecord).possibleConditions =
      [{ name := ⟨stripNumbering (pyStrip n1)⟩, probability := p1,
         description := ⟨pyStrip d1⟩, category := "general" },
       { name := ⟨stripNumbering (pyStrip n2)⟩, probability := p2,
         description := ⟨pyStrip d2⟩, category := "general" },
       { name := ⟨stripNumbering (pyStrip n3)⟩, probability := p3,
         description := ⟨pyStrip d3⟩, category := "general" },
       { name := ⟨stripNumbering (pyStrip n4)⟩, probability := p4,
         description := ⟨pyStrip d4⟩, category := "general" },
       { name := ⟨stripNumbering (pyStrip n5)⟩, probability := p5,
         description := ⟨pyStrip d5⟩, category := "general" }] := by
  unfold stepTier1
  split
  · rename_i hnone
    rw [hct] at hnone
    exact absurd hnone (by simp)
  · rename_i condText hsome
    rw [hct] at hsome
    injection hsome with hceq
    subst hceq
    rw [hbs]
    simp only [List.foldl_cons, List.foldl_nil]
    rw [tier1Block_pc h5, tier1Block_pc h4, tier1Block_pc h3, tier1Block_pc h2,
      tier1Block_pc h1]
    rfl



/-- C4: for every non-empty input whose dedicated `POSSIBLE CONDITIONS`
boundary yields a conditions text that splits into exactly 5 numbered
blocks, each matching the well-formed shape
`Name (Probability: NN%): desc` with `NN ≤ 100`, the returned
`possibleConditions` has length exactly 5, lists the conditions in source
order (names stripped of numbering, descriptions stripped), and every
probability is the parsed integer, lying in 0–100. -/
theorem C4_five_conditions (s : String)
    (ct b1 b2 b3 b4 b5 n1 n2 n3 n4 n5 d1 d2 d3 d4 d5 : List Char)
    (p1 p2 p3 p4 p5 : Nat)
    (hs : s ≠ "")
    (hct : possibleConditionsText s.data = some ct)
    (hbs : dropEmptyHead (splitNum ct) = [b1, b2, b3, b4, b5])
    (h1 : matchCondInfo b1 = some (n1, p1, d1))
    (h2 : matchCondInfo b2 = some (n2, p2, d2))
    (h3 : matchCondInfo b3 = some (n3, p3, d3))
    (h4 : matchCondInfo b4 = some (n4, p4, d4))
    (h5 : matchCondInfo b5 = some (n5, p5, d5))
    (hp : p1 ≤ 100 ∧ p2 ≤ 100 ∧ p3 ≤ 100 ∧ p4 ≤ 100 ∧ p5 ≤ 100) :
    (parse_gemini_response s).possibleConditions =
      [{ name := ⟨stripNumbering (pyStrip n1)⟩, probability := p1,
         description := ⟨pyStrip d1⟩, category := "general" },
       { name := ⟨stripNumbering (pyStrip n2)⟩, probability := p2,
         description := ⟨pyStrip d2⟩, category := "general" },
       { name := ⟨stripNumbering (pyStrip n3)⟩, probability := p3,
         description := ⟨pyStrip d3⟩, category := "general" },
       { name := ⟨stripNumbering (pyStrip n4)⟩, probability := p4,
         description := ⟨pyStrip d4⟩, category := "general" },
       { name := ⟨stripNumbering (pyStrip n5)⟩, probability := p5,
         description := ⟨pyStrip d5⟩, category := "general" }] ∧
    (parse_gemini_response s).possibleConditions.length = 5 ∧
    ∀ c ∈ (parse_gemini_response s).possibleConditions, c.probability ≤ 100 := by
  have hstep1 := stepTier1_pc_five hct hbs h1 h2 h3 h4 h5
  have hne1 : (stepTier1 s.data initRecord).possibleConditions.isEmpty = false := by
    rw [hstep1]; rfl
  have hmain : (parse_gemini_response s).possibleConditions =
      (stepTier1 s.data initRecord).possibleConditions := by
    rw [parse_gemini_response, if_neg hs]
    show (parseCore s.data).possibleConditions = _
    unfold parseCore
    dsimp only
    rw [(stepHealthScore_core _ _).1, (stepReports_core _ _).1, (stepDonts_core _ _).1,
      (stepDos_core _ _).1, (stepAyur_pc_csd _ _).1, (stepMedicine_core _ _).1,
      (stepPreventive_core _ _).1, (stepDiseases_core _ _).1, (stepExercise_core _ _).1,
      (stepMeals_core _ _).1, (stepRiskFactors_core _ _).1, (stepFollowUp_core _ _).1,
      (stepUrgency_core _ _).1, (stepRecommendation_core _ _).1, (ensure_core _).1]
    rw [if_neg (show ¬((stepTier1 s.data initRecord).possibleConditions.isEmpty = true) by
      rw [hne1]; exact Bool.false_ne_true)]
    rw [if_neg (show ¬(((stepTier1 s.data initRecord).possibleConditions.isEmpty
        && !(sectionsOf s.data).isEmpty) = true) by
      rw [hne1]; simp)]
  rw [hmain, hstep1]
  obtain ⟨hp1, hp2, hp3, hp4, hp5⟩ := hp
  refine ⟨rfl, rfl, ?_⟩
  intro c hc
  simp only [List.mem_cons, List.not_mem_nil, or_false] at hc
  rcases hc with rfl | rfl | rfl | rfl | rfl
  · exact hp1
  · exact hp2
  · exact hp3
  · exact hp4
  · exact hp5



set_option maxRecDepth 100000

/-- C4 witness: a concrete 5-block input. -/
theorem C4_five_conditions_witness :
    (parse_gemini_response "POSSIBLE CONDITIONS:\n1. Flu (Probability: 70%): A viral infection\n2. Cold (Probability: 60%): A common cold\n3. Covid (Probability: 50%): A viral illness\n4. Allergy (Probability: 40%): Pollen reaction\n5. Strep (Probability: 30%): Bacterial throat infection\nRECOMMENDATION:\nRest and hydrate").possibleConditions =
      [{ name := "Flu", probability := 70,
         description := "A viral infection", category := "general" },
       { name := "Cold", probability := 60,
         description := "A common cold", category := "general" },
       { name := "Covid", probability := 50,
         description := "A viral illness", category := "general" },
       { name := "Allergy", probability := 40,
         description := "Pollen reaction", category := "general" },
       { name := "Strep", probability := 30,
         description := "Bacterial throat infection", category := "general" }] ∧
    (parse_gemini_response "POSSIBLE CONDITIONS:\n1. Flu (Probability: 70%): A viral infection\n2. Cold (Probability: 60%): A common cold\n3. Covid (Probability: 50%): A viral illness\n4. Allergy (Probability: 40%): Pollen reaction\n5. Strep (Probability: 30%): Bacterial throat infection\nRECOMMENDATION:\nRest and hydrate").possibleConditions.length = 5 ∧
    ∀ c ∈ (parse_gemini_response "POSSIBLE CONDITIONS:\n1. Flu (Probability: 70%): A viral infection\n2. Cold (Probability: 60%): A common cold\n3. Covid (Probability: 50%): A viral illness\n4. Allergy (Probability: 40%): Pollen reaction\n5. Strep (Probability: 30%): Bacterial throat infection\nRECOMMENDATION:\nRest and hydrate").possibleConditions,
      c.probability ≤ 100 :=
  C4_five_conditions
    "POSSIBLE CONDITIONS:\n1. Flu (Probability: 70%): A viral infection\n2. Cold (Probability: 60%): A common cold\n3. Covid (Probability: 50%): A viral illness\n4. Allergy (Probability: 40%): Pollen reaction\n5. Strep (Probability: 30%): Bacterial throat infection\nRECOMMENDATION:\nRest and hydrate"
    "1. Flu (Probability: 70%): A viral infection\n2. Cold (Probability: 60%): A common cold\n3. Covid (Probability: 50%): A viral illness\n4. Allergy (Probability: 40%): Pollen reaction\n5. Strep (Probability: 30%): Bacterial throat infection".data
    "1. Flu (Probability: 70%): A viral infection".data
    " Cold (Probability: 60%): A common cold".data
    " Covid (Probability: 50%): A viral illness".data
    " Allergy (Probability: 40%): Pollen reaction".data
    " Strep (Probability: 30%): Bacterial throat infection".data
    "1. Flu ".data " Cold ".data " Covid ".data " Allergy ".data " Strep ".data
    "A viral infection".data "A common cold".data "A viral illness".data
    "Pollen reaction".data "Bacterial throat infection".data
    70 60 50 40 30
    (by decide) rfl rfl rfl rfl rfl rfl rfl (by decide)


theorem dictGet_insert_self {α : Type} (m : List (String × α)) (k : String) (v : α) :
    dictGet (dictInsert m k v) k = some v := by
  unfold dictInsert dictGet
  induction m with
  | nil => simp
  | cons p t ih =>
    by_cases hp : p.1 = k
    · simp [hp, List.find?]
    · rw [show ((p :: t).any fun q => decide (q.1 = k))
          = (t.any fun q => decide (q.1 = k)) by simp [hp]]
      by_cases ht : (t.any fun q => decide (q.1 = k)) = true
      · rw [if_pos ht]
        rw [if_pos ht] at ih
        simpa [List.find?, hp] using ih
      · rw [if_neg ht]
        rw [if_neg ht] at ih
        simpa [List.find?, hp] using ih

theorem find_key_isSome_map {α : Type} (m : List (String × α))
    (g : String × α → String × α) (hg : ∀ p, (g p).1 = p.1) (k' : String)
    (h : (List.find? (fun p => decide (p.1 = k')) m).isSome) :
    (List.find? (fun p => decide (p.1 = k')) (m.map g)).isSome := by
  induction m with
  | nil => simp at h
  | cons p t ih =>
    rw [List.map_cons]
    by_cases hp : p.1 = k'
    · rw [List.find?_cons_of_pos _ (by simp [hg, hp])]; rfl
    · rw [List.find?_cons_of_neg _ (by simp [hp])] at h
      rw [List.find?_cons_of_neg _ (by simp [hg, hp])]
      exact ih h

theorem dictGet_insert_isSome {α : Type} (m : List (String × α)) (k : String) (v : α)
    (k' : String) (h : (dictGet m k').isSome) :
    (dictGet (dictInsert m k v) k').isSome := by
  by_cases hk : k' = k
  · subst hk; rw [dictGet_insert_self]; rfl
  · unfold dictGet at h ⊢
    unfold dictInsert
    simp only [Option.isSome_map'] at h ⊢
    split
    · exact find_key_isSome_map m _ (fun p => by split <;> simp_all) k' h
    · rw [List.find?_append]
      cases hf : List.find? (fun p => decide (p.1 = k')) m with
      | some q => simp
      | none => rw [hf] at h; simp at h

theorem dictGet_update_isSome {α : Type} (m : List (String × α)) (k : String) (f : α → α)
    (k' : String) (h : (dictGet m k').isSome) :
    (dictGet (dictUpdate m k f) k').isSome := by
  unfold dictGet at h ⊢
  unfold dictUpdate
  simp only [Option.isSome_map'] at h ⊢
  exact find_key_isSome_map m _ (fun p => by split <;> simp_all) k' h

/-- The tier-phase key invariant: every listed condition's name is a key of
`conditionSpecificData`. -/
def KeysInv (r : AnalysisRecord) : Prop :=
  ∀ c ∈ r.possibleConditions, (dictGet r.conditionSpecificData c.name).isSome

theorem foldl_keysInv {β : Type} {f : AnalysisRecord → β → AnalysisRecord}
    (hf : ∀ r b, KeysInv r → KeysInv (f r b)) :
    ∀ (l : List β) (r : AnalysisRecord), KeysInv r → KeysInv (l.foldl f r) := by
  intro l
  induction l with
  | nil => exact fun r h => h
  | cons b t ih => exact fun r h => ih _ (hf r b h)



theorem tier1Block_csd_mono {text bl : List Char} {r : AnalysisRecord} {k : String}
    (h : (dictGet r.conditionSpecificData k).isSome) :
    (dictGet (tier1Block text r bl).conditionSpecificData k).isSome := by
  unfold tier1Block
  repeat' first | split | dsimp only
  all_goals first
    | exact h
    | exact dictGet_update_isSome _ _ _ _
        (dictGet_update_isSome _ _ _ _ (dictGet_insert_isSome _ _ _ _ h))
    | exact dictGet_update_isSome _ _ _ _ (dictGet_insert_isSome _ _ _ _ h)
    | exact dictGet_insert_isSome _ _ _ _ h

theorem tier1Block_csd_self {text bl : List Char} {r : AnalysisRecord}
    {n d : List Char} {p : Nat} (h : matchCondInfo bl = some (n, p, d)) :
    (dictGet (tier1Block text r bl).conditionSpecificData
      ⟨stripNumbering (pyStrip n)⟩).isSome := by
  unfold tier1Block
  rw [if_neg (by rw [matchCondInfo_strip_ne h]; exact Bool.false_ne_true), h]
  split
  · simp_all
  · rename_i fullName prob descRaw heq
    obtain ⟨rfl, rfl, rfl⟩ : n = fullName ∧ p = prob ∧ d = descRaw := by
      simpa using heq
    repeat' first | split | dsimp only
    all_goals first
      | exact dictGet_update_isSome _ _ _ _
          (dictGet_update_isSome _ _ _ _ (by rw [dictGet_insert_self]; rfl))
      | exact dictGet_update_isSome _ _ _ _ (by rw [dictGet_insert_self]; rfl)
      | (rw [dictGet_insert_self]; rfl)

theorem tier1Block_inv (text bl : List Char) (r : AnalysisRecord)
    (h : KeysInv r) : KeysInv (tier1Block text r bl) := by
  cases hm : matchCondInfo bl with
  | none =>
    have he : tier1Block text r bl = r := by
      unfold tier1Block
      split
      · rfl
      · rw [hm]
    rw [he]; exact h
  | some x =>
    obtain ⟨n, pr, d⟩ := x
    intro c hc
    rw [tier1Block_pc hm] at hc
    simp only [List.mem_append, List.mem_singleton] at hc
    rcases hc with hc | rfl
    · exact tier1Block_csd_mono (h c hc)
    · exact tier1Block_csd_self hm

theorem stepTier1_inv (text : List Char) (r : AnalysisRecord)
    (h : KeysInv r) : KeysInv (stepTier1 text r) := by
  unfold stepTier1
  split
  · exact h
  · exact foldl_keysInv (fun r b hr => tier1Block_inv text b r hr) _ r h

theorem stepTier2_inv (secs : List (String × String)) (r : AnalysisRecord)
    (h : KeysInv r) : KeysInv (stepTier2 secs r) := by
  unfold stepTier2
  split
  · exact h
  · refine foldl_keysInv (fun r m hr => ?_) _ r h
    intro c hc
    dsimp only at hc ⊢
    simp only [List.mem_append, List.mem_singleton] at hc
    rcases hc with hc | rfl
    · exact dictGet_insert_isSome _ _ _ _ (hr c hc)
    · rw [dictGet_insert_self]; rfl

theorem stepTier3_inv (secs : List (String × String)) (text : List Char)
    (r : AnalysisRecord) (h : KeysInv r) : KeysInv (stepTier3 secs text r) := by
  unfold stepTier3
  refine foldl_keysInv (fun r kv hr => ?_) _ r h
  repeat' first | split | dsimp only
  all_goals try exact hr
  all_goals
    intro c hc
  all_goals
    simp only [List.mem_append, List.mem_singleton] at hc
  all_goals
    rcases hc with hc | rfl
  all_goals first
    | exact dictGet_insert_isSome _ _ _ _ (hr c hc)
    | (rw [dictGet_insert_self]; rfl)



/-- C10: for every non-empty input on which the parser's `try` body
completes without reaching the top-level exception handler, every condition
name in the returned `possibleConditions` is a key of the returned
`conditionSpecificData` mapping, and the stored value carries both a
`recommendedActions` list and a `preventiveMeasures` list. -/
theorem C10_condition_names_are_keys (s : String) (r : AnalysisRecord)
    (hs : s ≠ "") (hr : parseBody s.data = Except.ok r) :
    ∀ c ∈ (parse_gemini_response s).possibleConditions,
      ∃ acts prevs : List String,
        dictGet (parse_gemini_response s).conditionSpecificData c.name
          = some { recommendedActions := acts, preventiveMeasures := prevs } := by
  have hinv : ∀ c ∈ (parseCore s.data).possibleConditions,
      (dictGet (parseCore s.data).conditionSpecificData c.name).isSome := by
    have h1 : KeysInv (stepTier1 s.data initRecord) :=
      stepTier1_inv _ _ (by intro c hc; simp [initRecord] at hc)
    unfold parseCore
    dsimp only
    intro c hc
    rw [(stepHealthScore_core _ _).1, (stepReports_core _ _).1, (stepDonts_core _ _).1,
      (stepDos_core _ _).1, (stepAyur_pc_csd _ _).1, (stepMedicine_core _ _).1,
      (stepPreventive_core _ _).1, (stepDiseases_core _ _).1, (stepExercise_core _ _).1,
      (stepMeals_core _ _).1, (stepRiskFactors_core _ _).1, (stepFollowUp_core _ _).1,
      (stepUrgency_core _ _).1, (stepRecommendation_core _ _).1, (ensure_core _).1] at hc
    rw [(stepHealthScore_core _ _).2.1, (stepReports_core _ _).2.1, (stepDonts_core _ _).2.1,
      (stepDos_core _ _).2.1, (stepAyur_pc_csd _ _).2, (stepMedicine_core _ _).2.1,
      (stepPreventive_core _ _).2.1, (stepDiseases_core _ _).2.1, (stepExercise_core _ _).2.1,
      (stepMeals_core _ _).2.1, (stepRiskFactors_core _ _).2.1, (stepFollowUp_core _ _).2.1,
      (stepUrgency_core _ _).2.1, (stepRecommendation_core _ _).2.1, (ensure_core _).2.1]
    revert c hc
    show KeysInv _
    repeat' split
    all_goals first
      | exact stepTier3_inv _ _ _ (stepTier2_inv _ _ h1)
      | exact stepTier3_inv _ _ _ h1
      | exact stepTier2_inv _ _ h1
      | exact h1
  have hpr : parse_gemini_response s = parseCore s.data := by
    rw [parse_gemini_response, if_neg hs]
    rfl
  intro c hc
  rw [hpr] at hc ⊢
  obtain ⟨d, hd⟩ := Option.isSome_iff_exists.mp (hinv c hc)
  exact ⟨d.recommendedActions, d.preventiveMeasures, hd⟩



/-- C10 witness: on a concrete input whose body completes normally, the
extracted condition's name is a key of the returned mapping. -/
theorem C10_condition_names_are_keys_witness :
    ∃ acts prevs : List String,
      dictGet (parse_gemini_response "POSSIBLE CONDITIONS:\n1. Migraine (Probability: 80%): A headache disorder\nRECOMMENDATION:\nRest in a dark room").conditionSpecificData
          "Migraine"
        = some { recommendedActions := acts, preventiveMeasures := prevs } :=
  C10_condition_names_are_keys
    "POSSIBLE CONDITIONS:\n1. Migraine (Probability: 80%): A headache disorder\nRECOMMENDATION:\nRest in a dark room"
    (parseCore "POSSIBLE CONDITIONS:\n1. Migraine (Probability: 80%): A headache disorder\nRECOMMENDATION:\nRest in a dark room".data)
    (by decide) rfl
    { name := "Migraine", probability := 80,
      description := "A headache disorder", category := "general" }
    (by decide)

end HV
